import Mathlib

set_option maxRecDepth 8000

/-!
Shallow embedding of `src/table.py` (class `TableImageGenerator`).

Modelling conventions:
* Python runtime values occurring in table records are modelled by `PyVal`
  (None, str, int, float).  Python floats are modelled as exact rationals;
  the only float operations the code performs are parsing (`float(value)`)
  and comparison with `0`, which are exact at every value the program
  compares.
* Python exceptions are modelled with `Except PyErr`; an uncaught exception
  is an `.error`.
* `int(value)` / `float(value)` are modelled by `pyInt?` / `pyFloat?`.
  The string grammars implement the usual decimal forms (optional
  surrounding whitespace, optional sign, digits, and for floats an optional
  fractional part and exponent); exotic literals (underscores, inf/nan,
  non-ASCII digits) are outside the modelled input space.  A failed parse
  models the `ValueError`/`TypeError` the code catches.
* `datetime.fromtimestamp(..).strftime(..)` is an external-library call; it
  is modelled by two function parameters `fmtFull`/`fmtDay` (one per
  format string used by the code), carried in `RenderArgs`.
* The `json.dumps`/`json.loads` round-trip between `_build_table_data` and
  `_create_table` is the identity on the data involved and is modelled as
  such (the builder emits exactly the dict/None shapes `_create_table`
  converts back to `Cell`/None).
* Python float arithmetic in the DPI scaling (`int(x * (150 / 72))`) is
  modelled as the exact rational floor `(x * 150) / 72`; at the magnitudes
  involved the float rounding error never crosses a floor boundary.
-/

/-- Python runtime values appearing in table records and configuration. -/
inductive PyVal where
  | none : PyVal
  | str : String → PyVal
  | int : Int → PyVal
  | float : ℚ → PyVal
deriving DecidableEq

/-- Python exceptions that the modelled code can raise (uncaught). -/
inductive PyErr where
  | typeError : PyErr
  | valueError : PyErr
  | attributeError : PyErr
  | indexError : PyErr
  | zeroDivisionError : PyErr
deriving DecidableEq

/-- Python `==` on the modelled values (numeric cross-type equality included). -/
def pyEq : PyVal → PyVal → Bool
  | PyVal.none, PyVal.none => true
  | PyVal.str a, PyVal.str b => a == b
  | PyVal.int a, PyVal.int b => a == b
  | PyVal.int a, PyVal.float b => ((a : ℚ)) == b
  | PyVal.float a, PyVal.int b => a == ((b : ℚ))
  | PyVal.float a, PyVal.float b => a == b
  | _, _ => false

/-- Digit value of an ASCII digit character. -/
def digitVal (c : Char) : Option Nat :=
  if c.isDigit then Option.some (c.toNat - 48) else Option.none

/-- Accumulate decimal digits; fails on the first non-digit. -/
def digitsAux : Option Nat → List Char → Option Nat
  | acc, [] => acc
  | Option.some a, c :: rest =>
      match digitVal c with
      | Option.some d => digitsAux (Option.some (a * 10 + d)) rest
      | Option.none => Option.none
  | Option.none, _ :: _ => Option.none

/-- Parse a nonempty all-digit string to a natural number. -/
def parseDigits (cs : List Char) : Option Nat :=
  if cs.isEmpty then Option.none else digitsAux (Option.some 0) cs

/-- Whitespace accepted (and stripped) by Python `int()` / `float()`. -/
def isPySpace (c : Char) : Bool :=
  c == ' ' || c == '\t' || c == '\n' || c == '\r' || c == Char.ofNat 11 || c == Char.ofNat 12

/-- Strip leading and trailing whitespace. -/
def stripSpaces (cs : List Char) : List Char :=
  ((cs.dropWhile isPySpace).reverse.dropWhile isPySpace).reverse

/-- Parse an optionally signed digit string (no surrounding whitespace). -/
def parseSignedDigits (cs : List Char) : Option Int :=
  match cs with
  | '+' :: rest => (parseDigits rest).map (fun n => ((n : Int)))
  | '-' :: rest => (parseDigits rest).map (fun n => -((n : Int)))
  | rest => (parseDigits rest).map (fun n => ((n : Int)))

/-- Python `int(s)` on a string: strip whitespace, optional sign, digits. -/
def parseIntChars (cs : List Char) : Option Int :=
  parseSignedDigits (stripSpaces cs)

/-- Truncation toward zero, the behaviour of Python `int()` on a float. -/
def ratTrunc (q : ℚ) : Int :=
  if q < 0 then -Rat.floor (-q) else Rat.floor q

/-- Python `int(value)`: `Option.none` models the `ValueError`/`TypeError`
the caller catches. -/
def pyInt? : PyVal → Option Int
  | PyVal.none => Option.none
  | PyVal.int n => Option.some n
  | PyVal.float q => Option.some (ratTrunc q)
  | PyVal.str s => parseIntChars s.data

/-- Value of a digit list together with its length (for fractional parts). -/
def digitListVal (cs : List Char) : Nat :=
  cs.foldl (fun a c => a * 10 + ((digitVal c).getD 0)) 0

/-- Parse the optional exponent part of a float literal (empty means 10^0). -/
def parseExp (cs : List Char) : Option Int :=
  match cs with
  | [] => Option.some 0
  | 'e' :: rest => parseSignedDigits rest
  | 'E' :: rest => parseSignedDigits rest
  | _ => Option.none

/-- Parse an unsigned float literal: `digits [. digits] [exp]` or `. digits [exp]`. -/
def parseUFloat (cs : List Char) : Option ℚ :=
  let ip := cs.takeWhile (fun c => (digitVal c).isSome)
  let rest := cs.dropWhile (fun c => (digitVal c).isSome)
  match rest with
  | '.' :: rest2 =>
      let fp := rest2.takeWhile (fun c => (digitVal c).isSome)
      let rest3 := rest2.dropWhile (fun c => (digitVal c).isSome)
      if ip.isEmpty && fp.isEmpty then Option.none
      else
        match parseExp rest3 with
        | Option.some e =>
            Option.some ((((digitListVal ip : ℚ)) + ((digitListVal fp : ℚ)) / ((10 : ℚ)) ^ fp.length) * ((10 : ℚ)) ^ e)
        | Option.none => Option.none
  | _ =>
      if ip.isEmpty then Option.none
      else
        match parseExp rest with
        | Option.some e => Option.some (((digitListVal ip : ℚ)) * ((10 : ℚ)) ^ e)
        | Option.none => Option.none

/-- Parse a signed float literal (whitespace already handled by caller). -/
def parseFloatChars (cs : List Char) : Option ℚ :=
  match stripSpaces cs with
  | '+' :: r => parseUFloat r
  | '-' :: r => (parseUFloat r).map (fun q => -q)
  | r => parseUFloat r

/-- Python `float(value)`: `Option.none` models the `ValueError`/`TypeError`
the caller catches. -/
def pyFloat? : PyVal → Option ℚ
  | PyVal.none => Option.none
  | PyVal.int n => Option.some ((n : ℚ))
  | PyVal.float q => Option.some q
  | PyVal.str s => parseFloatChars s.data

/-- Decimal rendering of a float whose value is integral; Python shows `x.0`.
Non-integral values are only ever handled symbolically by the claims, so a
simple exact rendering is used for them. -/
def floatRepr (q : ℚ) : String :=
  if q.den = 1 then toString q.num ++ ".0" else toString q

/-- Python `str(value)` on the modelled values. -/
def pyStr : PyVal → String
  | PyVal.none => "None"
  | PyVal.str s => s
  | PyVal.int n => toString n
  | PyVal.float q => floatRepr q

/-- Truthiness of an optional string (Python: `None` and `""` are falsy). -/
def strTruthy : Option String → Bool
  | Option.none => false
  | Option.some s => !(s == "")

/-- `TableImageGenerator._process_value` (src/table.py lines 117-151),
parametrised by the two strftime renderings (`%Y-%m-%d %H:%M:%S` and the
month/day form). -/
def process_value (fmtFull fmtDay : Int → String) (value : PyVal)
    (replace_zero : Bool) (format_type : Option String) : String :=
  if value == PyVal.none || pyEq value (PyVal.str "") then "-"
  else
    let fmtResult : Option String :=
      if strTruthy format_type then
        match pyInt? value with
        | Option.some ts =>
            if format_type == Option.some "to_format" then Option.some (fmtFull ts)
            else if format_type == Option.some "to_day" then Option.some (fmtDay ts)
            else Option.none
        | Option.none => Option.some (pyStr value)
      else Option.none
    match fmtResult with
    | Option.some s => s
    | Option.none =>
        if replace_zero then
          match pyFloat? value with
          | Option.some q => if q == 0 then "-" else pyStr value
          | Option.none => pyStr value
        else pyStr value

/-- The two format kinds of spec §4.1 (`"to_datetime"`/`"to_monthday"`);
the code's tokens for them are `'to_format'`/`'to_day'`. -/
inductive FormatKind where
  | toDatetime : FormatKind
  | toMonthday : FormatKind
deriving DecidableEq

/-- Code token for a spec format kind. -/
def formatKindToken : FormatKind → String
  | FormatKind.toDatetime => "to_format"
  | FormatKind.toMonthday => "to_day"

/-- Does the value parse as a float equal to zero (used by zero-replacement)? -/
def floatZero (value : PyVal) : Bool :=
  match pyFloat? value with
  | Option.some q => q == 0
  | Option.none => false

/-- The Value Formatter exactly as the claim C1 words it: null/empty check
first, then format kind (formatting when the value parses as an integer,
`str(value)` otherwise), then zero-replacement, then plain stringification. -/
def valueFormatterSpec (fmtFull fmtDay : Int → String) (value : PyVal)
    (replace_zero : Bool) (format_kind : Option FormatKind) : String :=
  if value = PyVal.none ∨ value = PyVal.str "" then "-"
  else
    match format_kind with
    | Option.some k =>
        match pyInt? value with
        | Option.some ts =>
            match k with
            | FormatKind.toDatetime => fmtFull ts
            | FormatKind.toMonthday => fmtDay ts
        | Option.none => pyStr value
    | Option.none =>
        if replace_zero && floatZero value then "-" else pyStr value

/-- The `Cell` class of src/table.py: text with a rowspan-by-colspan span. -/
structure Cell where
  text : String
  rowspan : Nat
  colspan : Nat
deriving DecidableEq

/-- A Python record (`dict`): an insertion-ordered association list. -/
def Record : Type := List (String × PyVal)

/-- Python `row.get(key, dflt)` on a record. -/
def pyGetD (row : Record) (key : String) (dflt : PyVal) : PyVal :=
  match List.find? (fun kv => kv.1 == key) row with
  | Option.some kv => kv.2
  | Option.none => dflt

/-- Python `d.get(key)` on a string-valued dict. -/
def dictGet? (d : List (String × String)) (key : String) : Option String :=
  match List.find? (fun kv => kv.1 == key) d with
  | Option.some kv => Option.some kv.2
  | Option.none => Option.none

/-- Truthiness of an optional list/dict (Python: `None` and empty are falsy). -/
def optListTruthy {α : Type} : Option (List α) → Bool
  | Option.none => false
  | Option.some l => !l.isEmpty

/-- The inputs of `create_table_image` that matter to the table pipeline,
together with the two strftime renderings used by `_process_value`. -/
structure RenderArgs where
  fmtFull : Int → String
  fmtDay : Int → String
  records : List Record
  columns_order : Option (List String)
  multi_columns : Option (List (List (String × Nat)))
  column_display : Option (List (String × String))
  replace_zero : Bool

/-- The seven values `_build_table_data` counts as "no data"
(`[None, '', '-', 0, '0', 0.0, '0.0']`, src/table.py line 328). -/
def pyEmptyList : List PyVal :=
  [PyVal.none, PyVal.str "", PyVal.str "-", PyVal.int 0, PyVal.str "0",
   PyVal.float 0, PyVal.str "0.0"]

/-- Python `v in [None, '', '-', 0, '0', 0.0, '0.0']`. -/
def isEmptyValue (v : PyVal) : Bool :=
  pyEmptyList.any (fun e => pyEq v e)

/-- Add a column to the `valid_columns` set (modelled as a dup-free list). -/
def addValidCol (acc : List String) (c : String) : List String :=
  if acc.contains c then acc else acc ++ [c]

/-- The `valid_columns` set built by the double loop of src/table.py
lines 324-329 (`for row in data: for col in columns_order: ...`). -/
def buildValidColumns (records : List Record) (cols : List String) : List String :=
  records.foldl
    (fun acc row =>
      cols.foldl
        (fun acc2 col =>
          if isEmptyValue (pyGetD row col PyVal.none) then acc2 else addValidCol acc2 col)
        acc)
    []

/-- `filtered_columns` (src/table.py line 332): `column_order` restricted to
valid columns when `columns_order` is truthy, `None` otherwise. -/
def filteredColumns (records : List Record) (co : Option (List String)) : Option (List String) :=
  if optListTruthy co then
    Option.some ((co.getD []).filter (fun c => (buildValidColumns records (co.getD [])).contains c))
  else Option.none

/-- Display-name resolution of src/table.py lines 372-373 / 385-386: keep the
raw column key when the configured value is a format token. -/
def displayName (cd : List (String × String)) (col : String) : String :=
  match dictGet? cd col with
  | Option.some dv => if dv == "to_day" || dv == "to_format" then col else dv
  | Option.none => col

/-- A one-column header cell carrying a resolved display name. -/
def displayCell (cd : List (String × String)) (col : String) : Option Cell :=
  Option.some ⟨displayName cd col, 1, 1⟩

/-- Fold a Python loop body that may raise: stops at the first `.error`. -/
def foldE {σ α : Type} (f : σ → α → Except PyErr σ) : σ → List α → Except PyErr σ
  | s, [] => Except.ok s
  | s, a :: l =>
      match f s a with
      | Except.ok s2 => foldE f s2 l
      | Except.error e => Except.error e

/-- Sum of the declared spans of one multi-header layer. -/
def spanSum (layer : List (String × Nat)) : Nat :=
  layer.foldl (fun a e => a + e.2) 0

/-- The pure effect of one `(header, span)` entry of a layer when
`filtered_columns` is a real list of length `F`: state is (cursor, row). -/
def entryStepF (F : Nat) (st : Nat × List (Option Cell)) (e : String × Nat) :
    Nat × List (Option Cell) :=
  let vs := min e.2 (F - st.1)
  (st.1 + e.2,
    if 0 < vs then st.2 ++ (Option.some (Cell.mk e.1 1 vs) :: List.replicate (vs - 1) Option.none)
    else st.2)

/-- One `(header, span)` entry of a layer (src/table.py lines 341-362).  When
`filtered_columns` is `None`, evaluating `len(filtered_columns)` raises
`TypeError` — but only if the span loop runs at least once. -/
def entryStep (Fopt : Option Nat) (st : Nat × List (Option Cell)) (e : String × Nat) :
    Except PyErr (Nat × List (Option Cell)) :=
  if e.2 = 0 then Except.ok (st.1, st.2)
  else
    match Fopt with
    | Option.none => Except.error PyErr.typeError
    | Option.some F => Except.ok (entryStepF F st e)

/-- One layer of the multi-header loop: builds its row (starting empty) and
appends it to the accumulated rows only if nonempty; the cursor
`current_position` persists across layers (src/table.py lines 337-365). -/
def layerStep (Fopt : Option Nat) (st : Nat × List (List (Option Cell)))
    (layer : List (String × Nat)) : Except PyErr (Nat × List (List (Option Cell))) :=
  match foldE (entryStep Fopt) (st.1, []) layer with
  | Except.ok cpRow =>
      Except.ok (cpRow.1, if cpRow.2.isEmpty then st.2 else st.2 ++ [cpRow.2])
  | Except.error e => Except.error e

/-- All layer-generated header rows (cursor starts at 0 once, before the
layer loop). -/
def layerRows (Fopt : Option Nat) (layers : List (List (String × Nat))) :
    Except PyErr (Nat × List (List (Option Cell))) :=
  foldE (layerStep Fopt) (0, []) layers

/-- Header construction of `_build_table_data` (src/table.py lines 334-392).
In the single-level branch, `column_display.get(col)` is evaluated for every
filtered column, so `column_display = None` raises `AttributeError` as soon
as there is at least one filtered column, and iterating a `None`
`filtered_columns` raises `TypeError`. -/
def buildHeaders (filtered : Option (List String))
    (mc : Option (List (List (String × Nat))))
    (cd : Option (List (String × String))) :
    Except PyErr (List (List (Option Cell))) :=
  if optListTruthy mc then
    match layerRows (filtered.map List.length) (mc.getD []) with
    | Except.error e => Except.error e
    | Except.ok st =>
        if optListTruthy cd && optListTruthy filtered then
          Except.ok (st.2 ++ [(filtered.getD []).map (fun c => displayCell (cd.getD []) c)])
        else Except.ok st.2
  else
    match filtered with
    | Option.none => Except.error PyErr.typeError
    | Option.some [] => Except.ok [[]]
    | Option.some (c0 :: crest) =>
        match cd with
        | Option.none => Except.error PyErr.attributeError
        | Option.some cdl => Except.ok [(c0 :: crest).map (fun c => displayCell cdl c)]

/-- `format_type = column_display.get(col) if column_display else None`
(src/table.py line 402). -/
def formatTypeFor (cd : Option (List (String × String))) (col : String) : Option String :=
  if optListTruthy cd then dictGet? (cd.getD []) col else Option.none

/-- One data row (src/table.py lines 396-407): formatted per filtered column
when `filtered_columns` is truthy, otherwise the raw `str(val)` of every
record value in natural order. -/
def buildRow (fmtFull fmtDay : Int → String) (filtered : Option (List String))
    (cd : Option (List (String × String))) (rz : Bool) (row : Record) : List String :=
  if optListTruthy filtered then
    (filtered.getD []).map (fun col =>
      process_value fmtFull fmtDay (pyGetD row col (PyVal.str "")) rz (formatTypeFor cd col))
  else row.map (fun kv => pyStr kv.2)

/-- The abstract table produced by `_build_table_data`. -/
structure TableData where
  headers : List (List (Option Cell))
  data : List (List String)
deriving DecidableEq

/-- `TableImageGenerator._build_table_data` (src/table.py lines 321-412). -/
def build_table_data (a : RenderArgs) : Except PyErr TableData :=
  let filtered := filteredColumns a.records a.columns_order
  match buildHeaders filtered a.multi_columns a.column_display with
  | Except.error e => Except.error e
  | Except.ok hs =>
      Except.ok ⟨hs, a.records.map (buildRow a.fmtFull a.fmtDay filtered a.column_display a.replace_zero)⟩

/-- Sum of colspans of the real (non-None) cells of one header row
(src/table.py lines 158-162). -/
def headerColspanSum (row : List (Option Cell)) : Nat :=
  row.foldl (fun a oc => match oc with | Option.some c => a + c.colspan | Option.none => a) 0

/-- `header_cols`: the largest per-row colspan sum (0 for no header rows). -/
def headerCols (headers : List (List (Option Cell))) : Nat :=
  headers.foldl (fun m row => max m (headerColspanSum row)) 0

/-- `max(len(row) for row in data)` over a nonempty list. -/
def maxRowLen (r0 : List String) (rest : List (List String)) : Nat :=
  rest.foldl (fun m row => max m row.length) r0.length

/-- `total_cols = max(header_cols, max(len(row) for row in data))`; total as
computed by src/table.py line 165 (only defined against nonempty data). -/
def computeTotalCols (headers : List (List (Option Cell))) (data : List (List String)) : Nat :=
  match data with
  | [] => headerCols headers
  | r0 :: rest => max (headerCols headers) (maxRowLen r0 rest)

/-- Result of `_calculate_table_size`: the code returns (width, height) and
stores the computed cell width on the instance; `totalCols` is exposed too
for the statements below. -/
structure SizeResult where
  totalCols : Nat
  cellWidth : Nat
  totalWidth : Nat
  totalHeight : Nat
deriving DecidableEq

/-- `TableImageGenerator._calculate_table_size` (src/table.py lines 153-189).
`max()` over an empty generator raises `ValueError`; `1840 // 0` raises
`ZeroDivisionError`. -/
def calculate_table_size (cellHeight : Nat) (headers : List (List (Option Cell)))
    (data : List (List String)) : Except PyErr SizeResult :=
  match data with
  | [] => Except.error PyErr.valueError
  | r0 :: rest =>
      let totalCols := max (headerCols headers) (maxRowLen r0 rest)
      if totalCols = 0 then Except.error PyErr.zeroDivisionError
      else
        let suggested := 1840 / totalCols
        let cw := if suggested > 240 then 240 else if suggested < 120 then 120 else suggested
        Except.ok ⟨totalCols, cw, totalCols * cw + 1, (headers.length + data.length) * cellHeight + 1⟩

/-- The three style fields of the generator instance that `_create_table`
mutates: `cell_width` (initially `None`), `cell_height`, `font_size`. -/
structure GenState where
  cell_width : Option Nat
  cell_height : Nat
  font_size : Nat
deriving DecidableEq

/-- Field values set by `TableImageGenerator.__init__`. -/
def initGenState : GenState := ⟨Option.none, 60, 24⟩

/-- DPI scaling `int(x * (dpi / 72))` at `dpi = 150`, as exact rationals. -/
def scaleDim (x : Nat) : Nat := (x * 150) / 72

/-- The net effect of one `_create_table` call on the instance's style fields
(src/table.py lines 449, 461-467, 539-541): `_calculate_table_size` stores
the freshly computed cell width, the originals are saved *after* that, the
fields are scaled for drawing, and the saved originals are restored before
returning. -/
def create_table_style (st : GenState) (headers : List (List (Option Cell)))
    (data : List (List String)) : Except PyErr GenState :=
  match calculate_table_size st.cell_height headers data with
  | Except.error e => Except.error e
  | Except.ok sz =>
      let afterCalc : GenState := ⟨Option.some sz.cellWidth, st.cell_height, st.font_size⟩
      let originalCW := sz.cellWidth
      let originalCH := afterCalc.cell_height
      let originalFS := afterCalc.font_size
      let _scaled : GenState :=
        ⟨Option.some (scaleDim sz.cellWidth), scaleDim originalCH, scaleDim originalFS⟩
      Except.ok ⟨Option.some originalCW, originalCH, originalFS⟩

/-- A header cell painted by the compositor, at its grid anchor position. -/
structure PaintedCell where
  row : Nat
  col : Nat
  cell : Cell
deriving DecidableEq

/-- State of the header-painting loop: the `drawn_cells` matrix and the
cells painted so far. -/
structure PaintState where
  drawn : List (List Bool)
  painted : List PaintedCell

/-- `drawn_cells[r][c]` as an optional read (`Option.none` = `IndexError`). -/
def drawnLookup (drawn : List (List Bool)) (r c : Nat) : Option Bool :=
  match drawn.get? r with
  | Option.some row => row.get? c
  | Option.none => Option.none

/-- `drawn_cells[r][c] = True` (in-range by the caller's guard). -/
def setTrue (drawn : List (List Bool)) (r c : Nat) : List (List Bool) :=
  match drawn.get? r with
  | Option.some row => drawn.set r (row.set c true)
  | Option.none => drawn

/-- Mark a cell's rowspan-by-colspan footprint in `drawn_cells`, clipped to
the matrix bounds (src/table.py lines 491-494). -/
def markCell (drawn : List (List Bool)) (rowIdx colIdx rs cs : Nat) : List (List Bool) :=
  (List.range rs).foldl
    (fun d1 dr =>
      (List.range cs).foldl
        (fun d2 dc =>
          if rowIdx + dr < d2.length && colIdx + dc < (d2.headD []).length then
            setTrue d2 (rowIdx + dr) (colIdx + dc)
          else d2)
        d1)
    drawn

/-- One header cell of the painting loop (src/table.py lines 486-502):
continuation markers and already-covered anchors are skipped; a real,
uncovered anchor marks its footprint and is painted. -/
def cellStep (rowIdx : Nat) (st : PaintState) (p : Nat × Option Cell) :
    Except PyErr PaintState :=
  match p.2 with
  | Option.none => Except.ok st
  | Option.some cell =>
      match drawnLookup st.drawn rowIdx p.1 with
      | Option.none => Except.error PyErr.indexError
      | Option.some true => Except.ok st
      | Option.some false =>
          Except.ok ⟨markCell st.drawn rowIdx p.1 cell.rowspan cell.colspan,
                     st.painted ++ [⟨rowIdx, p.1, cell⟩]⟩

/-- One header row of the painting loop. -/
def rowStep (st : PaintState) (p : Nat × List (Option Cell)) : Except PyErr PaintState :=
  foldE (cellStep p.1) st p.2.enum

/-- The header-painting pass of `_create_table` (src/table.py lines 481-502):
`drawn_cells` is a `len(headers) × ncols` matrix of `False`, where
`ncols = width // cell_width` on the scaled dimensions. -/
def headerPass (headers : List (List (Option Cell))) (ncols : Nat) :
    Except PyErr (List PaintedCell) :=
  match foldE rowStep ⟨headers.map (fun _ => List.replicate ncols false), []⟩ headers.enum with
  | Except.ok st => Except.ok st.painted
  | Except.error e => Except.error e

/-- Does painted cell `p` cover grid coordinate `(r, c)`? -/
def coversB (p : PaintedCell) (r c : Nat) : Bool :=
  decide (p.row ≤ r) && decide (r < p.row + p.cell.rowspan) &&
  decide (p.col ≤ c) && decide (c < p.col + p.cell.colspan)

/-- Number of painted cells whose footprint covers `(r, c)`. -/
def coverageCount (painted : List PaintedCell) (r c : Nat) : Nat :=
  painted.countP (fun p => coversB p r c)

/-- Python `sub in s` (substring containment). -/
def strContains (s sub : String) : Bool :=
  decide (sub.data <:+: s.data)

/-- Index of the first list element satisfying a test. -/
def findFirstIdx {α : Type} (p : α → Bool) : List α → Option Nat
  | [] => Option.none
  | a :: l => if p a then Option.some 0 else (findFirstIdx p l).map (fun i => i + 1)

/-- Index of the first real cell of the last header row whose text matches,
`next(i for i, cell in enumerate(headers[-1]) if cell and cell.text == col_name)`. -/
def findHeaderIdx (lastRow : List (Option Cell)) (colName : String) : Option Nat :=
  findFirstIdx (fun oc => match oc with
    | Option.some c => c.text == colName
    | Option.none => false) lastRow

/-- Does one highlight rule fire on this data row (src/table.py lines
509-517)?  A missing last header row (`IndexError`), an absent column label
(`StopIteration`) and an out-of-range column index (`IndexError`) are all
caught and make the rule contribute `False`. -/
def ruleMatches (headers : List (List (Option Cell))) (row : List String)
    (rule : String × PyVal) : Bool :=
  match headers.getLast? with
  | Option.none => false
  | Option.some lastRow =>
      match findHeaderIdx lastRow rule.1 with
      | Option.none => false
      | Option.some i =>
          match row.get? i with
          | Option.none => false
          | Option.some v => strContains v (pyStr rule.2)

/-- `should_highlight` for one data row: some rule fires (the Python loop
breaks at the first match; the boolean is the same). -/
def shouldHighlight (rules : List (String × PyVal))
    (headers : List (List (Option Cell))) (row : List String) : Bool :=
  rules.any (ruleMatches headers row)

/-- Everything the header-coverage claims need from one run of
`_build_table_data` + `_create_table` on a fresh generator instance. -/
structure PipeOut where
  td : TableData
  size : SizeResult
  ncols : Nat
  painted : List PaintedCell
deriving DecidableEq

/-- The pipeline of `create_table_image` up to (and including) the header
painting pass of `_create_table`, at the call's fixed `dpi = 150` and the
fresh instance's `cell_height = 60`. -/
def tablePipeline (a : RenderArgs) : Except PyErr PipeOut :=
  match build_table_data a with
  | Except.error e => Except.error e
  | Except.ok td =>
      match calculate_table_size 60 td.headers td.data with
      | Except.error e => Except.error e
      | Except.ok sz =>
          let ncols := scaleDim sz.totalWidth / scaleDim sz.cellWidth
          match headerPass td.headers ncols with
          | Except.error e => Except.error e
          | Except.ok painted => Except.ok ⟨td, sz, ncols, painted⟩

/-- Did the pipeline complete without an exception? -/
def pipeOk (a : RenderArgs) : Bool :=
  match tablePipeline a with
  | Except.ok _ => true
  | Except.error _ => false

/-- Header grid of a completed pipeline (junk value `[]` on error). -/
def pipeHeaders (a : RenderArgs) : List (List (Option Cell)) :=
  match tablePipeline a with
  | Except.ok o => o.td.headers
  | Except.error _ => []

/-- `total_cols` of a completed pipeline (junk value `0` on error). -/
def pipeTotalCols (a : RenderArgs) : Nat :=
  match tablePipeline a with
  | Except.ok o => o.size.totalCols
  | Except.error _ => 0

/-- Painted header cells of a completed pipeline (junk value `[]` on error). -/
def pipePainted (a : RenderArgs) : List PaintedCell :=
  match tablePipeline a with
  | Except.ok o => o.painted
  | Except.error _ => []

/-- Real-cell anchors of a header row with their list indices, starting at
index `j`. -/
def anchorsFrom : Nat → List (Option Cell) → List (Nat × Cell)
  | _, [] => []
  | j, Option.none :: rest => anchorsFrom (j + 1) rest
  | j, Option.some c :: rest => (j, c) :: anchorsFrom (j + 1) rest

/-- The painted cells the compositor is expected to produce on well-formed
header rows: every anchor of every row, at its own row index. -/
def paintedSpec : Nat → List (List (Option Cell)) → List PaintedCell
  | _, [] => []
  | i, row :: rest =>
      (anchorsFrom 0 row).map (fun a => PaintedCell.mk i a.1 a.2) ++ paintedSpec (i + 1) rest

/-- Header rows emitted by `_build_table_data`: a sequence of blocks, each a
single-row anchor cell followed by `colspan - 1` continuation markers. -/
inductive IsBlockRow : List (Option Cell) → Prop
  | nil : IsBlockRow []
  | cons (c : Cell) (rest : List (Option Cell)) :
      c.rowspan = 1 → 0 < c.colspan → IsBlockRow rest →
      IsBlockRow (Option.some c :: (List.replicate (c.colspan - 1) Option.none ++ rest))

/-- The row segment a layer contributes, as a function of the running cursor
(pure counterpart of the entry loop when `filtered_columns` has length `F`). -/
def layerTail (F : Nat) : Nat → List (String × Nat) → List (Option Cell)
  | _, [] => []
  | cp, e :: rest =>
      let vs := min e.2 (F - cp)
      if 0 < vs then
        Option.some (Cell.mk e.1 1 vs) :: (List.replicate (vs - 1) Option.none ++ layerTail F (cp + e.2) rest)
      else layerTail F (cp + e.2) rest

/-- Claim C3 as stated, at one input: if the pipeline completes, every header
coordinate in the first `total_cols` columns is covered exactly once. -/
def c3ClaimHolds (a : RenderArgs) : Bool :=
  !(pipeOk a) ||
    (List.range (pipeHeaders a).length).all (fun r =>
      (List.range (pipeTotalCols a)).all (fun c =>
        coverageCount (pipePainted a) r c == 1))

/-- Claim C4 as stated, at one input: after `_create_table` returns, all three
style fields equal their pre-call values. -/
def c4ClaimHolds (st : GenState) (headers : List (List (Option Cell)))
    (data : List (List String)) : Bool :=
  match create_table_style st headers data with
  | Except.ok st2 => st2 == st
  | Except.error _ => true

/-- Claim C6 as stated, at one input: the last header row of a built table has
exactly one real cell per filtered column. -/
def c6ClaimHolds (a : RenderArgs) : Bool :=
  match build_table_data a, filteredColumns a.records a.columns_order with
  | Except.ok td, Option.some fcols =>
      match td.headers.getLast? with
      | Option.some lr => (lr.length == fcols.length) && lr.all (fun oc => oc.isSome)
      | Option.none => false
  | _, _ => true

/-- Claim C9 as stated, at one input: the built data rows are the records'
values passed through the Value Formatter (with `replace_zero` and the
column's format kind). -/
def c9ClaimHolds (a : RenderArgs) : Bool :=
  match build_table_data a with
  | Except.ok td =>
      td.data == a.records.map (fun row => row.map (fun kv =>
        process_value a.fmtFull a.fmtDay kv.2 a.replace_zero
          (formatTypeFor a.column_display kv.1)))
  | Except.error _ => true

/-- Stub strftime rendering for concrete test inputs (its value is irrelevant
to the branches those inputs exercise). -/
def fmtStub : Int → String := fun _ => ""

/-- The C2 scenario: two records, `column_order = ["name", "score"]`,
`replace_zero = True`, no multi-header spec, no column-display mapping. -/
def c2args : RenderArgs :=
  ⟨fmtStub, fmtStub,
   [[("name", PyVal.str "A"), ("score", PyVal.int 0)],
    [("name", PyVal.str "B"), ("score", PyVal.int 5)]],
   Option.some ["name", "score"], Option.none, Option.none, true⟩

/-- The C2 scenario with an empty (rather than absent) column-display dict,
the call shape under which the builder completes. -/
def c2argsFixed : RenderArgs := { c2args with column_display := Option.some [] }

/-- C3 counterexample input: one layer declaring a span of 1 over two
filtered columns, plus the display header row. -/
def c3args : RenderArgs :=
  ⟨fmtStub, fmtStub, [[("a", PyVal.int 1), ("b", PyVal.int 2)]],
   Option.some ["a", "b"], Option.some [[("G", 1)]], Option.some [("a", "x")], false⟩

/-- C6 counterexample input: a multi-header spec present and no
column-display mapping, so the last header row keeps its merged cells. -/
def c6args : RenderArgs :=
  ⟨fmtStub, fmtStub, [[("a", PyVal.int 1), ("b", PyVal.int 2)]],
   Option.some ["a", "b"], Option.some [[("G", 2)]], Option.none, false⟩

/-- C9 counterexample input: `column_order` omitted (with a trivial
multi-header spec so header construction does not raise), a zero value and
`replace_zero = True`. -/
def c9cexArgs : RenderArgs :=
  ⟨fmtStub, fmtStub, [[("x", PyVal.int 0)]], Option.none, Option.some [[]],
   Option.none, true⟩

/-- A two-column single-header table (used as a concrete render input). -/
def pairHeaders : List (List (Option Cell)) :=
  [[Option.some (Cell.mk "a" 1 1), Option.some (Cell.mk "b" 1 1)]]

/-- Data row matching `pairHeaders`. -/
def pairData : List (List String) := [["x", "y"]]

/-- The pipeline output of the C2 scenario (with the empty display dict). -/
def c2PipeOut : PipeOut :=
  ⟨⟨[[Option.some (Cell.mk "name" 1 1), Option.some (Cell.mk "score" 1 1)]],
    [["A", "-"], ["B", "5"]]⟩,
   ⟨2, 240, 481, 181⟩, 2,
   [⟨0, 0, Cell.mk "name" 1 1⟩, ⟨0, 1, Cell.mk "score" 1 1⟩]⟩

/-- Witness input for the last-header-row property: a multi-header spec plus
a column-display mapping. -/
def c6wArgs : RenderArgs :=
  ⟨fmtStub, fmtStub, [[("a", PyVal.int 1), ("b", PyVal.int 2)]],
   Option.some ["a", "b"], Option.some [[("G", 2)]], Option.some [("a", "x")], false⟩

/-- The table `c6wArgs` builds. -/
def c6wTd : TableData :=
  ⟨[[Option.some (Cell.mk "G" 1 2), Option.none],
    [Option.some (Cell.mk "x" 1 1), Option.some (Cell.mk "b" 1 1)]],
   [["1", "2"]]⟩

/-! ## Lemmas and claim theorems -/

lemma pyNullEmpty_iff (v : PyVal) :
    (v == PyVal.none || pyEq v (PyVal.str "")) = true ↔ (v = PyVal.none ∨ v = PyVal.str "") := by
  rcases v with _ | s | n | q <;> simp [pyEq]

/-- Claim C1: the Value Formatter applies its rules in exactly the claimed
order — null/empty placeholder first, then format kind (which short-circuits
zero-replacement, formatting any integer-parsing value and returning
`str(value)` unchanged otherwise), then zero-replacement, then plain
stringification; in particular `format(0, replace_zero=True,
format_kind="to_datetime")` is the formatted date string, not `"-"`. -/
theorem C1_value_formatter_precedence :
    (∀ (fF fD : Int → String) (v : PyVal) (rz : Bool) (fk : Option FormatKind),
        process_value fF fD v rz (fk.map formatKindToken) =
          valueFormatterSpec fF fD v rz fk) ∧
    (∀ fF fD : Int → String,
        process_value fF fD (PyVal.int 0) true (Option.some "to_format") = fF 0) := by
  constructor
  · intro fF fD v rz fk
    by_cases h0 : v = PyVal.none ∨ v = PyVal.str ""
    · have hb : (v == PyVal.none || pyEq v (PyVal.str "")) = true := (pyNullEmpty_iff v).mpr h0
      unfold process_value valueFormatterSpec
      rw [if_pos hb, if_pos h0]
    · have hb : ¬ ((v == PyVal.none || pyEq v (PyVal.str "")) = true) :=
        fun h => h0 ((pyNullEmpty_iff v).mp h)
      unfold process_value valueFormatterSpec
      rw [if_neg hb, if_neg h0]
      cases fk with
      | none =>
          simp only [Option.map_none', strTruthy]
          cases rz with
          | false => simp [floatZero]
          | true =>
              cases hq : pyFloat? v with
              | none => simp [floatZero, hq]
              | some q => by_cases hq0 : q = 0 <;> simp [floatZero, hq, hq0]
      | some k =>
          have ht : strTruthy (Option.some (formatKindToken k)) = true := by
            cases k <;> rfl
          simp only [Option.map_some', ht, if_true]
          cases hi : pyInt? v with
          | none => simp [hi]
          | some ts => cases k <;> simp [hi, formatKindToken]
  · intro fF fD
    rfl

/-- Claim C2 (code bug): at the claimed input — records
`[{"name":"A","score":0},{"name":"B","score":5}]`, `column_order =
["name","score"]`, `replace_zero=True`, no multi-header spec and no
column-display mapping — the builder raises `AttributeError`
(`None.get(col)` in the single-header branch) instead of returning the
claimed table; with an empty column-display dict in place of the absent one
it produces exactly the claimed header row and data rows. -/
theorem C2_builder_scenario :
    build_table_data c2args = Except.error PyErr.attributeError ∧
    build_table_data c2argsFixed =
      Except.ok ⟨[[Option.some (Cell.mk "name" 1 1), Option.some (Cell.mk "score" 1 1)]],
                 [["A", "-"], ["B", "5"]]⟩ :=
  ⟨rfl, rfl⟩

/-- Claim C4 counterexample: on a fresh generator instance (whose
`cell_width` is `None`) a single completed render leaves `cell_width` equal
to the freshly computed width, not to its pre-call value, so the claim "cell
width, cell height and font size equal their pre-call original values after
each call" is false. -/
theorem C4_claim_counterexample :
    c4ClaimHolds initGenState pairHeaders pairData = false := rfl

/-- Claim C4 (amended): after a completed `_create_table` call, cell height
and font size equal their pre-call values, while `cell_width` equals the
width freshly computed by `_calculate_table_size` for this table (the
DPI-scaled values are undone); hence rendering the same table again leaves
all three fields unchanged. -/
theorem C4_style_restore (st : GenState) (headers : List (List (Option Cell)))
    (data : List (List String)) (st2 : GenState)
    (h : create_table_style st headers data = Except.ok st2) :
    st2.cell_height = st.cell_height ∧ st2.font_size = st.font_size ∧
    (∃ sz, calculate_table_size st.cell_height headers data = Except.ok sz ∧
       st2.cell_width = Option.some sz.cellWidth) ∧
    create_table_style st2 headers data = Except.ok st2 := by
  unfold create_table_style at h
  cases hsz : calculate_table_size st.cell_height headers data with
  | error e => rw [hsz] at h; cases h
  | ok sz =>
      rw [hsz] at h
      injection h with h
      subst h
      refine ⟨rfl, rfl, ⟨sz, rfl, rfl⟩, ?_⟩
      unfold create_table_style
      rw [show (⟨Option.some sz.cellWidth, st.cell_height, st.font_size⟩ : GenState).cell_height
            = st.cell_height from rfl, hsz]

/-- Witness for C4: a first render on the fresh instance restores height 60
and size 24, sets `cell_width` to the computed 240, and repeats identically. -/
theorem C4_style_restore_witness :
    (⟨Option.some 240, 60, 24⟩ : GenState).cell_height = initGenState.cell_height ∧
    (⟨Option.some 240, 60, 24⟩ : GenState).font_size = initGenState.font_size ∧
    (∃ sz, calculate_table_size initGenState.cell_height pairHeaders pairData = Except.ok sz ∧
       (⟨Option.some 240, 60, 24⟩ : GenState).cell_width = Option.some sz.cellWidth) ∧
    create_table_style ⟨Option.some 240, 60, 24⟩ pairHeaders pairData =
      Except.ok ⟨Option.some 240, 60, 24⟩ :=
  C4_style_restore initGenState pairHeaders pairData ⟨Option.some 240, 60, 24⟩ rfl

lemma clamp_eq (s : Nat) :
    (if s > 240 then 240 else if s < 120 then 120 else s) = min 240 (max 120 s) := by
  split
  · omega
  · split <;> omega

/-- Claim C8: for nonempty data the Grid Geometry Calculator returns
`total_cols` as the maximum of the largest per-row header colspan sum and the
longest data row, a single global cell width `clamp(1840 // total_cols, 120,
240)`, `total_width = total_cols * cell_width + 1` and `total_height =
(header rows + data rows) * cell_height + 1`. -/
theorem C8_grid_geometry (ch : Nat) (headers : List (List (Option Cell)))
    (r0 : List String) (rest : List (List String))
    (hpos : 0 < computeTotalCols headers (r0 :: rest)) :
    calculate_table_size ch headers (r0 :: rest) =
      Except.ok ⟨computeTotalCols headers (r0 :: rest),
        min 240 (max 120 (1840 / computeTotalCols headers (r0 :: rest))),
        computeTotalCols headers (r0 :: rest) *
          min 240 (max 120 (1840 / computeTotalCols headers (r0 :: rest))) + 1,
        (headers.length + (r0 :: rest).length) * ch + 1⟩ := by
  have hpos2 : 0 < max (headerCols headers) (maxRowLen r0 rest) := hpos
  have hne : ¬ (max (headerCols headers) (maxRowLen r0 rest) = 0) := by omega
  simp only [calculate_table_size, computeTotalCols]
  rw [if_neg hne, clamp_eq]

/-- Witness for C8: a three-column table gets the clamped maximum width 240,
total width `3 * 240 + 1 = 721` and, with two grid rows of height 60,
total height 121. -/
theorem C8_grid_geometry_witness :
    calculate_table_size 60 [[Option.some (Cell.mk "g" 1 3), Option.none, Option.none]]
        [["a", "b", "c"]] =
      Except.ok ⟨3, 240, 721, 121⟩ :=
  C8_grid_geometry 60 [[Option.some (Cell.mk "g" 1 3), Option.none, Option.none]]
    ["a", "b", "c"] [] (by decide)

lemma build_ok_inv (a : RenderArgs) (td : TableData)
    (h : build_table_data a = Except.ok td) :
    buildHeaders (filteredColumns a.records a.columns_order) a.multi_columns a.column_display
        = Except.ok td.headers ∧
    td.data = a.records.map (buildRow a.fmtFull a.fmtDay
        (filteredColumns a.records a.columns_order) a.column_display a.replace_zero) := by
  simp only [build_table_data] at h
  split at h
  next e heq => exact absurd h (by simp)
  next hs heq =>
    injection h with h
    subst h
    exact ⟨heq, rfl⟩

/-- Claim C9 counterexample: with `column_order` omitted, a zero-valued
record and `replace_zero=True`, the builder emits the raw `str(0) = "0"` and
not the Value Formatter's `"-"`, contradicting the claim that each value
goes through the Value Formatter with the `replace_zero` flag. -/
theorem C9_claim_counterexample : c9ClaimHolds c9cexArgs = false := rfl

/-- Claim C9 (amended): when `column_order` is omitted, the builder performs
no pruning and each data row consists of the plain `str(value)` of all of
the record's values in their natural order — the Value Formatter (and with
it `replace_zero` and any format kind) is not applied on this path. -/
theorem C9_rows_no_pruning (a : RenderArgs) (td : TableData)
    (hco : a.columns_order = Option.none)
    (hb : build_table_data a = Except.ok td) :
    td.data = a.records.map (fun row => row.map (fun kv => pyStr kv.2)) := by
  have hf : filteredColumns a.records a.columns_order = Option.none := by
    rw [hco]; rfl
  have hd := (build_ok_inv a td hb).2
  rw [hf] at hd
  rw [hd]
  unfold buildRow
  rfl

/-- Witness for C9: at the counterexample input the builder's rows are the
raw stringifications `[["0"]]`. -/
theorem C9_rows_no_pruning_witness :
    (⟨[], [["0"]]⟩ : TableData).data =
      c9cexArgs.records.map (fun row => row.map (fun kv => pyStr kv.2)) :=
  C9_rows_no_pruning c9cexArgs ⟨[], [["0"]]⟩ rfl rfl

/-- Claim C10: with an empty records list the pipeline always fails before
any image is produced — for every choice of the optional arguments the run
ends in an exception, and whenever the builder stage itself completes, the
failure is exactly the grid-size calculation's `max()` over the empty
sequence of row lengths (`ValueError`). -/
theorem C10_empty_records (fF fD : Int → String) (co : Option (List String))
    (mc : Option (List (List (String × Nat)))) (cd : Option (List (String × String)))
    (rz : Bool) :
    (∃ e, tablePipeline ⟨fF, fD, [], co, mc, cd, rz⟩ = Except.error e) ∧
    (∀ td, build_table_data ⟨fF, fD, [], co, mc, cd, rz⟩ = Except.ok td →
       calculate_table_size 60 td.headers td.data = Except.error PyErr.valueError) := by
  have hdata : ∀ td, build_table_data ⟨fF, fD, [], co, mc, cd, rz⟩ = Except.ok td →
      td.data = [] := by
    intro td htd
    exact (build_ok_inv ⟨fF, fD, [], co, mc, cd, rz⟩ td htd).2
  constructor
  · cases hb : build_table_data ⟨fF, fD, [], co, mc, cd, rz⟩ with
    | error e =>
        refine ⟨e, ?_⟩
        unfold tablePipeline
        rw [hb]
    | ok td =>
        obtain ⟨ths, tdata⟩ := td
        have hd : tdata = [] := hdata ⟨ths, tdata⟩ hb
        subst hd
        refine ⟨PyErr.valueError, ?_⟩
        unfold tablePipeline
        rw [hb]
        rfl
  · intro td htd
    rw [hdata td htd]
    rfl

/-- Witness for C10: a concrete argument choice under which the builder
completes with an empty data list, whereupon the size calculation raises. -/
theorem C10_empty_records_witness :
    calculate_table_size 60 [[]] [] = Except.error PyErr.valueError :=
  (C10_empty_records fmtStub fmtStub (Option.some ["a"]) Option.none (Option.some []) false).2
    ⟨[[]], []⟩ rfl

lemma mem_addValidCol (acc : List String) (c d : String) :
    d ∈ addValidCol acc c ↔ d ∈ acc ∨ d = c := by
  unfold addValidCol
  split
  · next h =>
      have hc : c ∈ acc := List.elem_iff.mp h
      constructor
      · exact fun hd => Or.inl hd
      · rintro (hd | rfl)
        · exact hd
        · exact hc
  · next h => simp

lemma mem_validRowFold (row : Record) (cols : List String) :
    ∀ (acc : List String) (d : String),
      (d ∈ cols.foldl (fun acc2 col =>
          if isEmptyValue (pyGetD row col PyVal.none) then acc2 else addValidCol acc2 col) acc) ↔
        (d ∈ acc ∨ (d ∈ cols ∧ isEmptyValue (pyGetD row d PyVal.none) = false)) := by
  induction cols with
  | nil => intro acc d; simp
  | cons c rest ih =>
      intro acc d
      simp only [List.foldl_cons]
      rw [ih]
      by_cases hc : isEmptyValue (pyGetD row c PyVal.none) = true
      · rw [if_pos hc]
        constructor
        · rintro (h | h)
          · exact Or.inl h
          · exact Or.inr ⟨List.mem_cons_of_mem _ h.1, h.2⟩
        · rintro (h | ⟨hmem, hne⟩)
          · exact Or.inl h
          · rcases List.mem_cons.mp hmem with rfl | h2
            · rw [hc] at hne; cases hne
            · exact Or.inr ⟨h2, hne⟩
      · have hc2 : isEmptyValue (pyGetD row c PyVal.none) = false := by
          cases hv : isEmptyValue (pyGetD row c PyVal.none)
          · rfl
          · exact absurd hv hc
        rw [if_neg hc, mem_addValidCol]
        constructor
        · rintro ((hin | rfl) | ⟨hmem, hne⟩)
          · exact Or.inl hin
          · exact Or.inr ⟨List.mem_cons_self _ _, hc2⟩
          · exact Or.inr ⟨List.mem_cons_of_mem _ hmem, hne⟩
        · rintro (hin | ⟨hmem, hne⟩)
          · exact Or.inl (Or.inl hin)
          · rcases List.mem_cons.mp hmem with rfl | h2
            · exact Or.inl (Or.inr rfl)
            · exact Or.inr ⟨h2, hne⟩

lemma mem_buildValidColumns (records : List Record) (cols : List String) (d : String) :
    d ∈ buildValidColumns records cols ↔
      d ∈ cols ∧ ∃ row ∈ records, isEmptyValue (pyGetD row d PyVal.none) = false := by
  unfold buildValidColumns
  suffices h : ∀ acc, (d ∈ records.foldl
      (fun acc row =>
        cols.foldl
          (fun acc2 col =>
            if isEmptyValue (pyGetD row col PyVal.none) then acc2 else addValidCol acc2 col)
          acc)
      acc) ↔
      (d ∈ acc ∨ (d ∈ cols ∧ ∃ row ∈ records, isEmptyValue (pyGetD row d PyVal.none) = false)) by
    simpa using h []
  intro acc
  induction records generalizing acc with
  | nil => simp
  | cons r rest ih =>
      simp only [List.foldl_cons]
      rw [ih, List.exists_mem_cons_iff]
      rw [mem_validRowFold]
      tauto

/-- Claim C5: with a (nonempty) `column_order`, a column is retained iff some
record holds a value for it outside `{None, "", "-", 0, "0", 0.0, "0.0"}`,
and the filtered column list is exactly `column_order` restricted to the
retained columns, order preserved. -/
theorem C5_column_pruning (records : List Record) (l : List String) (hne : l ≠ []) :
    filteredColumns records (Option.some l) =
      Option.some (l.filter (fun c =>
        records.any (fun row => !(isEmptyValue (pyGetD row c PyVal.none))))) := by
  unfold filteredColumns
  have ht : optListTruthy (Option.some l) = true := by
    unfold optListTruthy; simp [hne]
  rw [if_pos ht]
  simp only [Option.getD_some, Option.some.injEq]
  apply List.filter_congr
  intro c hc
  apply Bool.eq_iff_iff.mpr
  rw [List.elem_iff, mem_buildValidColumns, List.any_eq_true]
  constructor
  · rintro ⟨-, row, hrow, hempty⟩
    exact ⟨row, hrow, by simp [hempty]⟩
  · rintro ⟨row, hrow, hval⟩
    exact ⟨hc, row, hrow, by simpa using hval⟩

/-- Witness for C5: column "A" (always zero) is pruned, column "B" (one
non-empty value) is retained. -/
theorem C5_column_pruning_witness :
    filteredColumns [[("A", PyVal.int 0), ("B", PyVal.str "v")]]
        (Option.some ["A", "B"]) = Option.some ["B"] :=
  C5_column_pruning [[("A", PyVal.int 0), ("B", PyVal.str "v")]] ["A", "B"] (by decide)

lemma findFirstIdx_eq_some_iff {α : Type} (p : α → Bool) :
    ∀ (l : List α) (i : Nat), findFirstIdx p l = Option.some i ↔
      ((∃ a, l.get? i = Option.some a ∧ p a = true) ∧
       ∀ j, j < i → ∃ b, l.get? j = Option.some b ∧ p b = false) := by
  intro l
  induction l with
  | nil => intro i; simp [findFirstIdx]
  | cons a l ih =>
      intro i
      unfold findFirstIdx
      by_cases hp : p a = true
      · rw [if_pos hp]
        constructor
        · intro h
          injection h with h
          subst h
          exact ⟨⟨a, rfl, hp⟩, fun j hj => absurd hj (Nat.not_lt_zero j)⟩
        · rintro ⟨⟨b, hb, hpb⟩, hfirst⟩
          cases i with
          | zero => rfl
          | succ n =>
              obtain ⟨b0, hb0, hpb0⟩ := hfirst 0 (Nat.succ_pos n)
              rw [List.get?_cons_zero] at hb0
              injection hb0 with hb0
              subst hb0
              rw [hp] at hpb0
              cases hpb0
      · rw [if_neg hp]
        have hp2 : p a = false := by
          cases hv : p a
          · rfl
          · exact absurd hv hp
        cases i with
        | zero =>
            rw [Option.map_eq_some']
            constructor
            · rintro ⟨k, -, hk⟩
              exact absurd hk (Nat.succ_ne_zero k)
            · rintro ⟨⟨b, hb, hpb⟩, -⟩
              rw [List.get?_cons_zero] at hb
              injection hb with hb
              subst hb
              rw [hp2] at hpb
              cases hpb
        | succ n =>
            rw [Option.map_eq_some']
            constructor
            · rintro ⟨k, hk, hkn⟩
              have hkn2 : n = k := by omega
              subst hkn2
              obtain ⟨⟨b, hb, hpb⟩, hfirst⟩ := (ih n).mp hk
              refine ⟨⟨b, by simpa using hb, hpb⟩, ?_⟩
              intro j hj
              cases j with
              | zero => exact ⟨a, rfl, hp2⟩
              | succ m =>
                  obtain ⟨b2, hb2, hpb2⟩ := hfirst m (by omega)
                  exact ⟨b2, by simpa using hb2, hpb2⟩
            · rintro ⟨⟨b, hb, hpb⟩, hfirst⟩
              refine ⟨n, (ih n).mpr ⟨⟨b, by simpa using hb, hpb⟩, ?_⟩, rfl⟩
              intro j hj
              obtain ⟨b2, hb2, hpb2⟩ := hfirst (j + 1) (by omega)
              exact ⟨b2, by simpa using hb2, hpb2⟩

lemma headerPred_first_false (lastRow : List (Option Cell)) (name : String) (i : Nat)
    (hilen : i < lastRow.length)
    (hfirst : ∀ j, j < i → ∀ c2, lastRow.get? j = Option.some (Option.some c2) →
        c2.text ≠ name) :
    ∀ j, j < i → ∃ b, lastRow.get? j = Option.some b ∧
      (match b with
       | Option.some c => c.text == name
       | Option.none => false) = false := by
  intro j hj
  have hjlen : j < lastRow.length := by omega
  refine ⟨lastRow.get ⟨j, hjlen⟩, List.get?_eq_get hjlen, ?_⟩
  cases hb : lastRow.get ⟨j, hjlen⟩ with
  | none => rfl
  | some c2 =>
      have hne := hfirst j hj c2 (by rw [List.get?_eq_get hjlen, hb])
      exact beq_eq_false_iff_ne.mpr hne

lemma ruleMatches_iff (headers : List (List (Option Cell))) (row : List String)
    (rule : String × PyVal) :
    ruleMatches headers row rule = true ↔
      ∃ lastRow i c v,
        headers.getLast? = Option.some lastRow ∧
        lastRow.get? i = Option.some (Option.some c) ∧ c.text = rule.1 ∧
        (∀ j, j < i → ∀ c2, lastRow.get? j = Option.some (Option.some c2) →
            c2.text ≠ rule.1) ∧
        row.get? i = Option.some v ∧
        strContains v (pyStr rule.2) = true := by
  unfold ruleMatches
  split
  next hl =>
      rw [hl]
      simp
  next lastRow hl =>
      rw [hl]
      split
      next hf =>
          simp only [Bool.false_eq_true, false_iff]
          rintro ⟨lr, i, c, v, hlr, hget, htext, hfirst, -, -⟩
          injection hlr with hlr
          subst hlr
          have hilen : i < lastRow.length := by
            obtain ⟨h, -⟩ := List.get?_eq_some.mp hget
            exact h
          have hsome : findHeaderIdx lastRow rule.1 = Option.some i := by
            apply (findFirstIdx_eq_some_iff _ lastRow i).mpr
            exact ⟨⟨Option.some c, hget, by simp [htext]⟩,
                   headerPred_first_false lastRow rule.1 i hilen hfirst⟩
          rw [hf] at hsome
          cases hsome
      next i0 hf =>
          obtain ⟨⟨b, hb, hpb⟩, hfirst⟩ := (findFirstIdx_eq_some_iff _ lastRow i0).mp hf
          obtain ⟨c, rfl⟩ : ∃ c, b = Option.some c := by
            cases b with
            | none => cases hpb
            | some c => exact ⟨c, rfl⟩
          have htext : c.text = rule.1 := by simpa using hpb
          constructor
          · intro h
            cases hv : row.get? i0 with
            | none => rw [hv] at h; cases h
            | some v =>
                rw [hv] at h
                refine ⟨lastRow, i0, c, v, rfl, hb, htext, ?_, hv, h⟩
                intro j hj c2 hc2 hceq
                obtain ⟨b2, hb2, hpb2⟩ := hfirst j hj
                rw [hb2] at hc2
                injection hc2 with hc2
                subst hc2
                have hpb3 : (c2.text == rule.1) = false := hpb2
                rw [hceq] at hpb3
                simp at hpb3
          · rintro ⟨lr, i, c2, v, hlr, hget, htext2, hfirst2, hv, hs⟩
            injection hlr with hlr
            subst hlr
            have hilen : i < lastRow.length := by
              obtain ⟨h2, -⟩ := List.get?_eq_some.mp hget
              exact h2
            have hi : findHeaderIdx lastRow rule.1 = Option.some i := by
              apply (findFirstIdx_eq_some_iff _ lastRow i).mpr
              exact ⟨⟨Option.some c2, hget, by simp [htext2]⟩,
                     headerPred_first_false lastRow rule.1 i hilen hfirst2⟩
            rw [hf] at hi
            injection hi with hi
            subst hi
            rw [hv]
            exact hs

/-- Claim C7: a data row is highlighted iff some rule names a column whose
label is the text of a real cell of the last header row, resolved to the
first such cell's position, and the row's formatted value at that position
contains the rule's keyword as a substring; a rule whose label is absent
from the last header row (or whose resolved index is out of range for the
row, or with no header rows at all) is silently skipped. -/
theorem C7_highlight_iff (rules : List (String × PyVal))
    (headers : List (List (Option Cell))) (row : List String) :
    shouldHighlight rules headers row = true ↔
      ∃ rule ∈ rules, ∃ lastRow i c v,
        headers.getLast? = Option.some lastRow ∧
        lastRow.get? i = Option.some (Option.some c) ∧ c.text = rule.1 ∧
        (∀ j, j < i → ∀ c2, lastRow.get? j = Option.some (Option.some c2) →
            c2.text ≠ rule.1) ∧
        row.get? i = Option.some v ∧
        strContains v (pyStr rule.2) = true := by
  unfold shouldHighlight
  rw [List.any_eq_true]
  constructor
  · rintro ⟨rule, hmem, hrm⟩
    exact ⟨rule, hmem, (ruleMatches_iff headers row rule).mp hrm⟩
  · rintro ⟨rule, hmem, h⟩
    exact ⟨rule, hmem, (ruleMatches_iff headers row rule).mpr h⟩

/-- Claim C6 counterexample: with a multi-header spec present and no
column-display mapping, the last header row keeps its merged layer cells
(here one 2-column cell plus a continuation marker for two filtered
columns), so it does not have exactly one real cell per filtered column. -/
theorem C6_claim_counterexample : c6ClaimHolds c6args = false := rfl

/-- Claim C6 (amended): whenever the builder completes with a (truthy)
column-display mapping — and, if a multi-header spec is present, a nonempty
filtered column list — the last header row is exactly one single-span cell
per filtered column, positionally aligned and labelled with that column's
resolved display name; without a column-display mapping a multi-header
spec's last layer row keeps merged cells and the alignment fails. -/
theorem C6_last_header_row (a : RenderArgs) (td : TableData) (fcols : List String)
    (cdl : List (String × String))
    (hb : build_table_data a = Except.ok td)
    (hf : filteredColumns a.records a.columns_order = Option.some fcols)
    (hcd : a.column_display = Option.some cdl) (hcdne : cdl ≠ [])
    (hmc : optListTruthy a.multi_columns = true → fcols ≠ []) :
    td.headers.getLast? = Option.some (fcols.map (fun c => displayCell cdl c)) := by
  have hh := (build_ok_inv a td hb).1
  rw [hf, hcd] at hh
  unfold buildHeaders at hh
  by_cases hm : optListTruthy a.multi_columns = true
  · rw [if_pos hm] at hh
    split at hh
    next e heq => cases hh
    next st heq =>
        have ht : (optListTruthy (Option.some cdl) && optListTruthy (Option.some fcols)) = true := by
          unfold optListTruthy
          simp [hcdne, hmc hm]
        rw [if_pos ht] at hh
        injection hh with hh
        rw [← hh]
        simp
  · rw [if_neg hm] at hh
    cases fcols with
    | nil =>
        have hh2 : Except.ok (ε := PyErr) [([] : List (Option Cell))] = Except.ok td.headers := hh
        injection hh2 with hh2
        rw [← hh2]
        rfl
    | cons c0 crest =>
        have hh2 : Except.ok (ε := PyErr)
            [(c0 :: crest).map (fun c => displayCell cdl c)] = Except.ok td.headers := hh
        injection hh2 with hh2
        rw [← hh2]
        rfl

/-- Witness for C6: the built table of `c6wArgs` has last header row
`[x, b]` — one real cell per filtered column, display name applied. -/
theorem C6_last_header_row_witness :
    c6wTd.headers.getLast? =
      Option.some (["a", "b"].map (fun c => displayCell [("a", "x")] c)) :=
  C6_last_header_row c6wArgs c6wTd ["a", "b"] [("a", "x")] rfl rfl rfl (by decide)
    (fun _ => by decide)

lemma setTrue_get?_row_ne (d : List (List Bool)) (r c r2 : Nat) (h : r2 ≠ r) :
    (setTrue d r c).get? r2 = d.get? r2 := by
  unfold setTrue
  cases hd : d.get? r with
  | none => rfl
  | some row => exact List.get?_set_ne _ _ (fun he => h he.symm)

lemma setTrue_get?_row_eq (d : List (List Bool)) (r c : Nat) :
    (setTrue d r c).get? r = (d.get? r).map (fun row => row.set c true) := by
  unfold setTrue
  cases hd : d.get? r with
  | none => rw [hd]; rfl
  | some row =>
      have hlt : r < d.length := (List.get?_eq_some.mp hd).1
      rw [List.get?_set_eq_of_lt _ hlt]
      rfl

lemma drawnLookup_setTrue_outside (d : List (List Bool)) (r c r2 c2 : Nat)
    (h : r2 ≠ r ∨ c2 ≠ c) :
    drawnLookup (setTrue d r c) r2 c2 = drawnLookup d r2 c2 := by
  unfold drawnLookup
  by_cases hr : r2 = r
  · subst hr
    have hc : c2 ≠ c := by
      rcases h with h | h
      · exact absurd rfl h
      · exact h
    rw [setTrue_get?_row_eq]
    cases hd : d.get? r2 with
    | none => rfl
    | some row =>
        simp only [Option.map_some']
        rw [List.get?_set_ne _ _ (fun he => hc he.symm)]
  · rw [setTrue_get?_row_ne d r c r2 hr]

lemma markInner_outside (rr ci : Nat) : ∀ (cs : Nat) (d : List (List Bool)) (r2 c2 : Nat),
    (r2 ≠ rr ∨ c2 < ci ∨ ci + cs ≤ c2) →
    drawnLookup ((List.range cs).foldl
      (fun d2 dc =>
        if rr < d2.length && ci + dc < (d2.headD []).length then
          setTrue d2 rr (ci + dc)
        else d2) d) r2 c2 = drawnLookup d r2 c2 := by
  intro cs
  induction cs with
  | zero => intro d r2 c2 h; rfl
  | succ n ih =>
      intro d r2 c2 h
      rw [List.range_succ, List.foldl_append, List.foldl_cons, List.foldl_nil]
      have houter := ih d r2 c2 (by
        rcases h with h | h | h
        · exact Or.inl h
        · exact Or.inr (Or.inl h)
        · exact Or.inr (Or.inr (by omega)))
      split
      · rw [drawnLookup_setTrue_outside _ _ _ _ _ (by
          rcases h with h | h | h
          · exact Or.inl h
          · exact Or.inr (by omega)
          · exact Or.inr (by omega))]
        exact houter
      · exact houter

lemma markCell_one_outside (d : List (List Bool)) (ri ci cs r2 c2 : Nat)
    (h : r2 ≠ ri ∨ c2 < ci ∨ ci + cs ≤ c2) :
    drawnLookup (markCell d ri ci 1 cs) r2 c2 = drawnLookup d r2 c2 := by
  unfold markCell
  rw [show List.range 1 = [0] from rfl, List.foldl_cons, List.foldl_nil]
  exact markInner_outside (ri + 0) ci cs d r2 c2 (by
    rcases h with h | h | h
    · exact Or.inl (by omega)
    · exact Or.inr (Or.inl h)
    · exact Or.inr (Or.inr h))

lemma foldE_cellStep_nones (ri : Nat) (m : Nat) : ∀ (j : Nat) (st : PaintState)
    (rest : List (Option Cell)),
    foldE (cellStep ri) st (List.enumFrom j (List.replicate m Option.none ++ rest)) =
    foldE (cellStep ri) st (List.enumFrom (j + m) rest) := by
  induction m with
  | zero => intro j st rest; rw [List.replicate, List.nil_append, Nat.add_zero]
  | succ n ih =>
      intro j st rest
      rw [List.replicate_succ, List.cons_append]
      rw [show foldE (cellStep ri) st
            (List.enumFrom j (Option.none :: (List.replicate n Option.none ++ rest))) =
          foldE (cellStep ri) st
            (List.enumFrom (j + 1) (List.replicate n Option.none ++ rest)) from rfl]
      rw [ih (j + 1) st rest, show j + 1 + n = j + (n + 1) from by omega]

lemma anchorsFrom_replicate (m : Nat) : ∀ (j : Nat) (rest : List (Option Cell)),
    anchorsFrom j (List.replicate m Option.none ++ rest) = anchorsFrom (j + m) rest := by
  induction m with
  | zero => intro j rest; rw [List.replicate, List.nil_append, Nat.add_zero]
  | succ n ih =>
      intro j rest
      rw [List.replicate_succ, List.cons_append]
      rw [show anchorsFrom j (Option.none :: (List.replicate n Option.none ++ rest)) =
            anchorsFrom (j + 1) (List.replicate n Option.none ++ rest) from rfl]
      rw [ih (j + 1) rest, show j + 1 + n = j + (n + 1) from by omega]

lemma foldE_cons {σ α : Type} (f : σ → α → Except PyErr σ) (s : σ) (a : α) (l : List α) :
    foldE f s (a :: l) =
      (match f s a with
       | Except.ok s2 => foldE f s2 l
       | Except.error e => Except.error e) := by
  rw [foldE]

lemma rowpass_blocks (ri : Nat) {rest : List (Option Cell)} (hbr : IsBlockRow rest) :
    ∀ (j0 : Nat) (st out : PaintState),
      (∀ j, j0 ≤ j → (drawnLookup st.drawn ri j).getD false = false) →
      foldE (cellStep ri) st (List.enumFrom j0 rest) = Except.ok out →
      out.painted = st.painted ++
          (anchorsFrom j0 rest).map (fun a => PaintedCell.mk ri a.1 a.2) ∧
      (∀ r2 c2, r2 ≠ ri → drawnLookup out.drawn r2 c2 = drawnLookup st.drawn r2 c2) ∧
      (∀ j, j0 + rest.length ≤ j →
          drawnLookup out.drawn ri j = drawnLookup st.drawn ri j) := by
  induction hbr with
  | nil =>
      intro j0 st out hpre hfold
      rw [show List.enumFrom j0 ([] : List (Option Cell)) = [] from rfl] at hfold
      injection hfold with h
      subst h
      exact ⟨by rw [show anchorsFrom j0 ([] : List (Option Cell)) = [] from rfl]; simp,
             fun _ _ _ => rfl, fun _ _ => rfl⟩
  | cons c rest2 hrs hcs hrest ih =>
      intro j0 st out hpre hfold
      rw [show List.enumFrom j0
            (Option.some c :: (List.replicate (c.colspan - 1) Option.none ++ rest2)) =
          (j0, Option.some c) ::
            List.enumFrom (j0 + 1) (List.replicate (c.colspan - 1) Option.none ++ rest2)
          from rfl] at hfold
      cases hlk : drawnLookup st.drawn ri j0 with
      | none =>
          rw [foldE_cons] at hfold
          rw [show cellStep ri st (j0, Option.some c) = Except.error PyErr.indexError from by
                unfold cellStep; rw [hlk]] at hfold
          cases hfold
      | some b =>
          have hbf : b = false := by
            have hj := hpre j0 (le_refl j0)
            rw [hlk] at hj
            simpa using hj
          subst hbf
          rw [foldE_cons] at hfold
          rw [show cellStep ri st (j0, Option.some c) =
                Except.ok ⟨markCell st.drawn ri j0 c.rowspan c.colspan,
                           st.painted ++ [PaintedCell.mk ri j0 c]⟩ from by
                unfold cellStep; rw [hlk]] at hfold
          rw [hrs] at hfold
          have hfold2 : foldE (cellStep ri)
              ⟨markCell st.drawn ri j0 1 c.colspan,
               st.painted ++ [PaintedCell.mk ri j0 c]⟩
              (List.enumFrom (j0 + 1)
                (List.replicate (c.colspan - 1) Option.none ++ rest2)) = Except.ok out := hfold
          rw [foldE_cellStep_nones ri (c.colspan - 1) (j0 + 1) _ rest2,
              show j0 + 1 + (c.colspan - 1) = j0 + c.colspan from by omega] at hfold2
          have hpre1 : ∀ j, j0 + c.colspan ≤ j →
              (drawnLookup (markCell st.drawn ri j0 1 c.colspan) ri j).getD false = false := by
            intro j hj
            rw [markCell_one_outside st.drawn ri j0 c.colspan ri j (Or.inr (Or.inr hj))]
            exact hpre j (by omega)
          obtain ⟨hp1, hother1, htail1⟩ := ih (j0 + c.colspan)
            ⟨markCell st.drawn ri j0 1 c.colspan, st.painted ++ [PaintedCell.mk ri j0 c]⟩
            out hpre1 hfold2
          have hlen : (Option.some c ::
              (List.replicate (c.colspan - 1) Option.none ++ rest2)).length
              = c.colspan + rest2.length := by
            simp
            omega
          refine ⟨?_, ?_, ?_⟩
          · rw [hp1]
            rw [show anchorsFrom j0
                  (Option.some c :: (List.replicate (c.colspan - 1) Option.none ++ rest2)) =
                (j0, c) :: anchorsFrom (j0 + 1)
                  (List.replicate (c.colspan - 1) Option.none ++ rest2) from rfl,
                anchorsFrom_replicate (c.colspan - 1) (j0 + 1) rest2,
                show j0 + 1 + (c.colspan - 1) = j0 + c.colspan from by omega]
            simp
          · intro r2 c2 hne
            rw [hother1 r2 c2 hne]
            exact markCell_one_outside st.drawn ri j0 c.colspan r2 c2 (Or.inl hne)
          · intro j hj
            rw [hlen] at hj
            rw [htail1 j (by omega)]
            exact markCell_one_outside st.drawn ri j0 c.colspan ri j
              (Or.inr (Or.inr (by omega)))

lemma gridpass_blocks : ∀ (rows : List (List (Option Cell))),
    (∀ row ∈ rows, IsBlockRow row) →
    ∀ (i0 : Nat) (st out : PaintState),
      (∀ i j, i0 ≤ i → (drawnLookup st.drawn i j).getD false = false) →
      foldE rowStep st (List.enumFrom i0 rows) = Except.ok out →
      out.painted = st.painted ++ paintedSpec i0 rows := by
  intro rows
  induction rows with
  | nil =>
      intro hb i0 st out hpre hfold
      rw [show List.enumFrom i0 ([] : List (List (Option Cell))) = [] from rfl] at hfold
      injection hfold with h
      subst h
      rw [show paintedSpec i0 ([] : List (List (Option Cell))) = [] from rfl]
      simp
  | cons row rest ih =>
      intro hb i0 st out hpre hfold
      rw [show List.enumFrom i0 (row :: rest) =
            (i0, row) :: List.enumFrom (i0 + 1) rest from rfl, foldE_cons] at hfold
      cases hrs : rowStep st (i0, row) with
      | error e => rw [hrs] at hfold; cases hfold
      | ok st1 =>
          rw [hrs] at hfold
          have hfold2 : foldE rowStep st1 (List.enumFrom (i0 + 1) rest) = Except.ok out := hfold
          have hrowfold : foldE (cellStep i0) st (List.enumFrom 0 row) = Except.ok st1 := hrs
          obtain ⟨hp1, hother1, -⟩ :=
            rowpass_blocks i0 (hb row (List.mem_cons_self row rest)) 0 st st1
              (fun j _ => hpre i0 j (le_refl i0)) hrowfold
          have hpre1 : ∀ i j, i0 + 1 ≤ i →
              (drawnLookup st1.drawn i j).getD false = false := by
            intro i j hi
            rw [hother1 i j (by omega)]
            exact hpre i j (by omega)
          have hrest := ih (fun r hr => hb r (List.mem_cons_of_mem _ hr)) (i0 + 1)
            st1 out hpre1 hfold2
          rw [hrest, hp1]
          rw [show paintedSpec i0 (row :: rest) =
                (anchorsFrom 0 row).map (fun a => PaintedCell.mk i0 a.1 a.2) ++
                paintedSpec (i0 + 1) rest from rfl]
          simp [List.append_assoc]

lemma drawnLookup_init (headers : List (List (Option Cell))) (ncols i j : Nat) :
    (drawnLookup (headers.map (fun _ => List.replicate ncols false)) i j).getD false
      = false := by
  unfold drawnLookup
  cases hg : (headers.map (fun _ => List.replicate ncols false)).get? i with
  | none => rfl
  | some row =>
      have hrow : row = List.replicate ncols false := by
        rw [List.get?_map] at hg
        cases hh : headers.get? i with
        | none => rw [hh] at hg; cases hg
        | some x => rw [hh] at hg; injection hg with hg; exact hg.symm
      subst hrow
      show ((List.replicate ncols false).get? j).getD false = false
      cases hj : (List.replicate ncols false).get? j with
      | none => rfl
      | some b =>
          have hbf : b = false := List.eq_of_mem_replicate (List.get?_mem hj)
          subst hbf
          rfl

lemma headerPass_blocks (headers : List (List (Option Cell))) (ncols : Nat)
    (painted : List PaintedCell)
    (hb : ∀ row ∈ headers, IsBlockRow row)
    (h : headerPass headers ncols = Except.ok painted) :
    painted = paintedSpec 0 headers := by
  unfold headerPass at h
  cases hst : foldE rowStep
      ⟨headers.map (fun _ => List.replicate ncols false), []⟩ headers.enum with
  | error e => rw [hst] at h; cases h
  | ok st =>
      rw [hst] at h
      injection h with h
      subst h
      have := gridpass_blocks headers hb 0
        ⟨headers.map (fun _ => List.replicate ncols false), []⟩ st
        (fun i j _ => drawnLookup_init headers ncols i j)
        (by rw [show headers.enum = List.enumFrom 0 headers from rfl] at hst; exact hst)
      simpa using this

lemma count_anchors_row (i : Nat) {row : List (Option Cell)} (hbr : IsBlockRow row) :
    ∀ (j0 r c : Nat),
      List.countP (fun p => coversB p r c)
        ((anchorsFrom j0 row).map (fun a => PaintedCell.mk i a.1 a.2)) =
      (if r = i ∧ j0 ≤ c ∧ c < j0 + row.length then 1 else 0) := by
  induction hbr with
  | nil =>
      intro j0 r c
      rw [show anchorsFrom j0 ([] : List (Option Cell)) = [] from rfl]
      rw [show (([] : List (Nat × Cell)).map (fun a => PaintedCell.mk i a.1 a.2)) = [] from rfl]
      rw [List.countP_nil]
      split
      · next hcond => exact absurd hcond (by simp only [List.length_nil]; omega)
      · rfl
  | cons cc rest2 hrs hcs hrest ih =>
      intro j0 r c
      rw [show anchorsFrom j0
            (Option.some cc :: (List.replicate (cc.colspan - 1) Option.none ++ rest2)) =
          (j0, cc) :: anchorsFrom (j0 + 1)
            (List.replicate (cc.colspan - 1) Option.none ++ rest2) from rfl,
          anchorsFrom_replicate (cc.colspan - 1) (j0 + 1) rest2,
          show j0 + 1 + (cc.colspan - 1) = j0 + cc.colspan from by omega,
          List.map_cons, List.countP_cons, ih (j0 + cc.colspan) r c]
      have hcov : (coversB (PaintedCell.mk i j0 cc) r c = true) ↔
          (r = i ∧ j0 ≤ c ∧ c < j0 + cc.colspan) := by
        unfold coversB
        rw [hrs]
        simp only [Bool.and_eq_true, decide_eq_true_eq]
        omega
      have hlen : (Option.some cc ::
          (List.replicate (cc.colspan - 1) Option.none ++ rest2)).length
          = cc.colspan + rest2.length := by
        simp
        omega
      rw [hlen]
      rw [show (if coversB (PaintedCell.mk i j0 cc) r c = true then 1 else 0) =
            (if r = i ∧ j0 ≤ c ∧ c < j0 + cc.colspan then 1 else 0) from by
        by_cases hx : r = i ∧ j0 ≤ c ∧ c < j0 + cc.colspan
        · rw [if_pos hx, if_pos (hcov.mpr hx)]
        · rw [if_neg hx, if_neg (fun hbx => hx (hcov.mp hbx))]]
      split_ifs <;> omega

lemma coverage_paintedSpec_lt : ∀ (rows : List (List (Option Cell))) (i0 r c : Nat),
    (∀ row ∈ rows, IsBlockRow row) → r < i0 →
    coverageCount (paintedSpec i0 rows) r c = 0 := by
  intro rows
  induction rows with
  | nil => intro i0 r c hb hr; rfl
  | cons row rest ih =>
      intro i0 r c hb hr
      unfold coverageCount
      rw [show paintedSpec i0 (row :: rest) =
            (anchorsFrom 0 row).map (fun a => PaintedCell.mk i0 a.1 a.2) ++
            paintedSpec (i0 + 1) rest from rfl,
          List.countP_append,
          count_anchors_row i0 (hb row (List.mem_cons_self row rest)) 0 r c,
          if_neg (by omega)]
      have := ih (i0 + 1) r c (fun r2 hr2 => hb r2 (List.mem_cons_of_mem _ hr2)) (by omega)
      unfold coverageCount at this
      rw [this]

lemma coverage_paintedSpec_le_one : ∀ (rows : List (List (Option Cell))) (i0 r c : Nat),
    (∀ row ∈ rows, IsBlockRow row) →
    coverageCount (paintedSpec i0 rows) r c ≤ 1 := by
  intro rows
  induction rows with
  | nil => intro i0 r c hb; exact Nat.le_succ 0
  | cons row rest ih =>
      intro i0 r c hb
      unfold coverageCount
      rw [show paintedSpec i0 (row :: rest) =
            (anchorsFrom 0 row).map (fun a => PaintedCell.mk i0 a.1 a.2) ++
            paintedSpec (i0 + 1) rest from rfl,
          List.countP_append,
          count_anchors_row i0 (hb row (List.mem_cons_self row rest)) 0 r c]
      by_cases hr : r = i0
      · have h2 := coverage_paintedSpec_lt rest (i0 + 1) r c
          (fun r2 hr2 => hb r2 (List.mem_cons_of_mem _ hr2)) (by omega)
        unfold coverageCount at h2
        rw [h2]
        split_ifs <;> omega
      · rw [if_neg (fun hx => hr hx.1)]
        have := ih (i0 + 1) r c (fun r2 hr2 => hb r2 (List.mem_cons_of_mem _ hr2))
        unfold coverageCount at this
        omega

lemma coverage_paintedSpec_exact : ∀ (rows : List (List (Option Cell))) (i0 k : Nat)
    (row : List (Option Cell)) (c : Nat),
    (∀ row2 ∈ rows, IsBlockRow row2) →
    rows.get? k = Option.some row → c < row.length →
    coverageCount (paintedSpec i0 rows) (i0 + k) c = 1 := by
  intro rows
  induction rows with
  | nil => intro i0 k row c hb hget hc; cases hget
  | cons row0 rest ih =>
      intro i0 k row c hb hget hc
      unfold coverageCount
      rw [show paintedSpec i0 (row0 :: rest) =
            (anchorsFrom 0 row0).map (fun a => PaintedCell.mk i0 a.1 a.2) ++
            paintedSpec (i0 + 1) rest from rfl,
          List.countP_append,
          count_anchors_row i0 (hb row0 (List.mem_cons_self row0 rest)) 0 (i0 + k) c]
      cases k with
      | zero =>
          rw [List.get?_cons_zero] at hget
          injection hget with hget
          subst hget
          rw [if_pos (by refine ⟨by omega, by omega, by omega⟩)]
          have h2 := coverage_paintedSpec_lt rest (i0 + 1) (i0 + 0) c
            (fun r2 hr2 => hb r2 (List.mem_cons_of_mem _ hr2)) (by omega)
          unfold coverageCount at h2
          rw [h2]
      | succ n =>
          rw [List.get?_cons_succ] at hget
          rw [if_neg (by omega)]
          have := ih (i0 + 1) n row c (fun r2 hr2 => hb r2 (List.mem_cons_of_mem _ hr2))
            hget hc
          unfold coverageCount at this
          rw [show i0 + (n + 1) = i0 + 1 + n from by omega]
          rw [this]

lemma foldE_entryStep_none : ∀ (layer : List (String × Nat))
    (st out : Nat × List (Option Cell)),
    foldE (entryStep Option.none) st layer = Except.ok out → out = st := by
  intro layer
  induction layer with
  | nil =>
      intro st out h
      injection h with h
      exact h.symm
  | cons e rest ih =>
      intro st out h
      rw [foldE_cons] at h
      by_cases he : e.2 = 0
      · rw [show entryStep Option.none st e = Except.ok (st.1, st.2) from by
            unfold entryStep; rw [if_pos he]] at h
        exact ih (st.1, st.2) out h
      · rw [show entryStep Option.none st e = Except.error PyErr.typeError from by
            unfold entryStep; rw [if_neg he]] at h
        cases h

lemma entryStep_some (F : Nat) (st : Nat × List (Option Cell)) (e : String × Nat) :
    entryStep (Option.some F) st e = Except.ok (entryStepF F st e) := by
  unfold entryStep entryStepF
  by_cases he : e.2 = 0
  · rw [if_pos he, he]
    simp
  · rw [if_neg he]

lemma foldE_entryStep_some (F : Nat) : ∀ (layer : List (String × Nat))
    (st : Nat × List (Option Cell)),
    foldE (entryStep (Option.some F)) st layer =
      Except.ok (layer.foldl (entryStepF F) st) := by
  intro layer
  induction layer with
  | nil => intro st; rfl
  | cons e rest ih =>
      intro st
      rw [foldE_cons, entryStep_some, List.foldl_cons]
      exact ih (entryStepF F st e)

lemma foldl_add_snd : ∀ (rest : List (String × Nat)) (a : Nat),
    rest.foldl (fun acc e => acc + e.2) a = a + rest.foldl (fun acc e => acc + e.2) 0 := by
  intro rest
  induction rest with
  | nil => intro a; simp
  | cons e r ih =>
      intro a
      rw [List.foldl_cons, List.foldl_cons, ih (a + e.2), ih (0 + e.2)]
      omega

lemma spanSum_cons (e : String × Nat) (rest : List (String × Nat)) :
    spanSum (e :: rest) = e.2 + spanSum rest := by
  unfold spanSum
  rw [List.foldl_cons, foldl_add_snd rest (0 + e.2)]
  omega

lemma layerTail_cons (F cp : Nat) (e : String × Nat) (rest : List (String × Nat)) :
    layerTail F cp (e :: rest) =
      (if 0 < min e.2 (F - cp) then
        Option.some (Cell.mk e.1 1 (min e.2 (F - cp))) ::
          (List.replicate (min e.2 (F - cp) - 1) Option.none ++ layerTail F (cp + e.2) rest)
       else layerTail F (cp + e.2) rest) := by
  rfl

lemma foldl_entryStepF : ∀ (layer : List (String × Nat)) (F cp : Nat)
    (acc : List (Option Cell)),
    layer.foldl (entryStepF F) (cp, acc) =
      (cp + spanSum layer, acc ++ layerTail F cp layer) := by
  intro layer
  induction layer with
  | nil =>
      intro F cp acc
      rw [show spanSum [] = 0 from rfl, show layerTail F cp [] = [] from rfl]
      simp
  | cons e rest ih =>
      intro F cp acc
      rw [List.foldl_cons]
      rw [show entryStepF F (cp, acc) e =
            (cp + e.2, acc ++ (if 0 < min e.2 (F - cp) then
              Option.some (Cell.mk e.1 1 (min e.2 (F - cp))) ::
                List.replicate (min e.2 (F - cp) - 1) Option.none
             else [])) from by
            show ((cp + e.2,
              if 0 < min e.2 (F - cp) then
                acc ++ (Option.some (Cell.mk e.1 1 (min e.2 (F - cp))) ::
                  List.replicate (min e.2 (F - cp) - 1) Option.none)
              else acc) : Nat × List (Option Cell)) = _
            by_cases hv : 0 < min e.2 (F - cp)
            · rw [if_pos hv, if_pos hv]
            · rw [if_neg hv, if_neg hv]; simp]
      rw [ih F (cp + e.2) _, spanSum_cons, layerTail_cons]
      by_cases hv : 0 < min e.2 (F - cp)
      · rw [if_pos hv, if_pos hv]
        rw [Prod.mk.injEq]
        constructor
        · omega
        · simp [List.append_assoc]
      · rw [if_neg hv, if_neg hv]
        rw [Prod.mk.injEq]
        constructor
        · omega
        · simp

lemma layerTail_blocks (F : Nat) : ∀ (layer : List (String × Nat)) (cp : Nat),
    IsBlockRow (layerTail F cp layer) := by
  intro layer
  induction layer with
  | nil => intro cp; exact IsBlockRow.nil
  | cons e rest ih =>
      intro cp
      rw [layerTail_cons]
      by_cases hv : 0 < min e.2 (F - cp)
      · rw [if_pos hv]
        exact IsBlockRow.cons (Cell.mk e.1 1 (min e.2 (F - cp))) _ rfl hv (ih (cp + e.2))
      · rw [if_neg hv]
        exact ih (cp + e.2)

lemma layerTail_length (F : Nat) : ∀ (layer : List (String × Nat)) (cp : Nat),
    (layerTail F cp layer).length = min (cp + spanSum layer) F - min cp F := by
  intro layer
  induction layer with
  | nil =>
      intro cp
      rw [show layerTail F cp [] = [] from rfl, show spanSum [] = 0 from rfl]
      simp
  | cons e rest ih =>
      intro cp
      rw [layerTail_cons, spanSum_cons]
      by_cases hv : 0 < min e.2 (F - cp)
      · rw [if_pos hv]
        simp only [List.length_cons, List.length_append, List.length_replicate]
        rw [ih (cp + e.2)]
        omega
      · rw [if_neg hv]
        rw [ih (cp + e.2)]
        omega

lemma layerTail_nil_of_ge (F : Nat) (layer : List (String × Nat)) (cp : Nat)
    (h : F ≤ cp) : layerTail F cp layer = [] := by
  have hl := layerTail_length F layer cp
  have : (layerTail F cp layer).length = 0 := by omega
  exact List.length_eq_zero.mp this

lemma layerStep_some (F cp : Nat) (rows : List (List (Option Cell)))
    (layer : List (String × Nat)) :
    layerStep (Option.some F) (cp, rows) layer =
      Except.ok (cp + spanSum layer,
        if (layerTail F cp layer).isEmpty then rows
        else rows ++ [layerTail F cp layer]) := by
  unfold layerStep
  rw [foldE_entryStep_some F layer (cp, [])]
  rw [foldl_entryStepF layer F cp []]
  rw [show ([] : List (Option Cell)) ++ layerTail F cp layer = layerTail F cp layer
        from List.nil_append _]

lemma layerRows_high (F : Nat) : ∀ (layers : List (List (String × Nat))) (cp : Nat)
    (rows : List (List (Option Cell))), F ≤ cp →
    ∃ cp2, foldE (layerStep (Option.some F)) (cp, rows) layers =
        Except.ok (cp2, rows) ∧ F ≤ cp2 := by
  intro layers
  induction layers with
  | nil => intro cp rows h; exact ⟨cp, rfl, h⟩
  | cons l rest ih =>
      intro cp rows h
      rw [foldE_cons, layerStep_some F cp rows l,
          layerTail_nil_of_ge F l cp h]
      obtain ⟨cp2, hfold, hcp2⟩ := ih (cp + spanSum l) rows (by omega)
      exact ⟨cp2, hfold, hcp2⟩

lemma layerRows_shape (F : Nat) (l1 : List (String × Nat))
    (ls : List (List (String × Nat))) (hF : 0 < F) (hcov : F ≤ spanSum l1) :
    ∃ cp2, layerRows (Option.some F) (l1 :: ls) =
        Except.ok (cp2, [layerTail F 0 l1]) ∧
      (layerTail F 0 l1).length = F := by
  have hlen : (layerTail F 0 l1).length = F := by
    have := layerTail_length F l1 0
    omega
  have hne : layerTail F 0 l1 ≠ [] := by
    intro hnil
    rw [hnil] at hlen
    simp at hlen
    omega
  have hempty : (layerTail F 0 l1).isEmpty = false := by
    simp [hne]
  unfold layerRows
  rw [foldE_cons, layerStep_some F 0 [] l1, hempty]
  rw [show (if false = true then ([] : List (List (Option Cell)))
        else [] ++ [layerTail F 0 l1]) = [layerTail F 0 l1] from by simp]
  obtain ⟨cp2, hfold, -⟩ := layerRows_high F ls (0 + spanSum l1) [layerTail F 0 l1]
    (by omega)
  exact ⟨cp2, hfold, hlen⟩

lemma mapDisplay_blocks (cdl : List (String × String)) : ∀ (fcols : List String),
    IsBlockRow (fcols.map (fun c => displayCell cdl c)) := by
  intro fcols
  induction fcols with
  | nil => exact IsBlockRow.nil
  | cons c rest ih =>
      rw [List.map_cons]
      exact IsBlockRow.cons (Cell.mk (displayName cdl c) 1 1)
        (rest.map (fun c => displayCell cdl c)) rfl Nat.one_pos ih

lemma layerRows_rows_blocks (Fopt : Option Nat) : ∀ (layers : List (List (String × Nat)))
    (cp : Nat) (rows : List (List (Option Cell))) (cp2 : Nat)
    (rows2 : List (List (Option Cell))),
    (∀ r ∈ rows, IsBlockRow r) →
    foldE (layerStep Fopt) (cp, rows) layers = Except.ok (cp2, rows2) →
    ∀ r ∈ rows2, IsBlockRow r := by
  intro layers
  induction layers with
  | nil =>
      intro cp rows cp2 rows2 hb h
      injection h with h
      cases h
      exact hb
  | cons l rest ih =>
      intro cp rows cp2 rows2 hb h
      rw [foldE_cons] at h
      cases Fopt with
      | none =>
          cases hstep : foldE (entryStep Option.none) (cp, []) l with
          | error e =>
              rw [show layerStep Option.none (cp, rows) l = Except.error e from by
                    unfold layerStep; rw [hstep]] at h
              cases h
          | ok cpRow =>
              have hcpr := foldE_entryStep_none l (cp, []) cpRow hstep
              subst hcpr
              rw [show layerStep Option.none (cp, rows) l = Except.ok (cp, rows) from by
                    unfold layerStep; rw [hstep]; rfl] at h
              exact ih cp rows cp2 rows2 hb h
      | some F =>
          rw [layerStep_some F cp rows l] at h
          have hb2 : ∀ r ∈ (if (layerTail F cp l).isEmpty then rows
              else rows ++ [layerTail F cp l]), IsBlockRow r := by
            split
            · exact hb
            · intro r hr
              rcases List.mem_append.mp hr with hr | hr
              · exact hb r hr
              · rw [List.mem_singleton.mp hr]
                exact layerTail_blocks F l cp
          exact ih (cp + spanSum l) _ cp2 rows2 hb2 h

lemma buildHeaders_blocks (filtered : Option (List String))
    (mc : Option (List (List (String × Nat)))) (cd : Option (List (String × String)))
    (hs : List (List (Option Cell)))
    (h : buildHeaders filtered mc cd = Except.ok hs) :
    ∀ row ∈ hs, IsBlockRow row := by
  unfold buildHeaders at h
  by_cases hm : optListTruthy mc = true
  · rw [if_pos hm] at h
    split at h
    next e heq => cases h
    next st heq =>
        have hrows : ∀ r ∈ st.2, IsBlockRow r := by
          apply layerRows_rows_blocks (filtered.map List.length) (mc.getD []) 0 [] st.1 st.2
            (fun r hr => absurd hr (List.not_mem_nil r))
          exact heq
        split at h
        next hcond =>
            injection h with h
            subst h
            intro r hr
            rcases List.mem_append.mp hr with hr | hr
            · exact hrows r hr
            · rw [List.mem_singleton.mp hr]
              exact mapDisplay_blocks (cd.getD []) (filtered.getD [])
        next hcond =>
            injection h with h
            subst h
            exact hrows
  · rw [if_neg hm] at h
    split at h
    next => cases h
    next =>
        injection h with h
        subst h
        intro r hr
        rw [List.mem_singleton.mp hr]
        exact IsBlockRow.nil
    next c0 crest =>
        split at h
        next => cases h
        next cdl =>
            injection h with h
            subst h
            intro r hr
            rw [List.mem_singleton.mp hr]
            exact mapDisplay_blocks cdl (c0 :: crest)

lemma buildHeaders_rows_len (fcols : List String)
    (mc : Option (List (List (String × Nat)))) (cd : Option (List (String × String)))
    (hs : List (List (Option Cell)))
    (hfne : fcols ≠ [])
    (hcov : ∀ layers, mc = Option.some layers → ∀ l ∈ layers, fcols.length ≤ spanSum l)
    (h : buildHeaders (Option.some fcols) mc cd = Except.ok hs) :
    ∀ row ∈ hs, row.length = fcols.length := by
  unfold buildHeaders at h
  by_cases hm : optListTruthy mc = true
  · obtain ⟨ms, rfl⟩ : ∃ ms, mc = Option.some ms := by
      cases mc with
      | none => simp [optListTruthy] at hm
      | some ms => exact ⟨ms, rfl⟩
    have hms : ms ≠ [] := by
      intro hn
      rw [hn] at hm
      simp [optListTruthy] at hm
    obtain ⟨l1, ls, rfl⟩ : ∃ l1 ls, ms = l1 :: ls := by
      cases ms with
      | nil => exact absurd rfl hms
      | cons a b => exact ⟨a, b, rfl⟩
    have hF : 0 < fcols.length := List.length_pos.mpr hfne
    obtain ⟨cp2, hlr, hlen1⟩ := layerRows_shape fcols.length l1 ls hF
      (hcov (l1 :: ls) rfl l1 (List.mem_cons_self _ _))
    rw [if_pos hm] at h
    rw [show layerRows ((Option.some fcols).map List.length)
          ((Option.some (l1 :: ls)).getD []) =
        Except.ok (cp2, [layerTail fcols.length 0 l1]) from hlr] at h
    have h2 : (if optListTruthy cd && optListTruthy (Option.some fcols) then
          Except.ok (ε := PyErr) ([layerTail fcols.length 0 l1] ++
            [fcols.map (fun c => displayCell (cd.getD []) c)])
        else Except.ok [layerTail fcols.length 0 l1]) = Except.ok hs := h
    split at h2
    next hcond =>
        injection h2 with h2
        subst h2
        intro r hr
        rcases List.mem_append.mp hr with hr | hr
        · rw [List.mem_singleton.mp hr]
          exact hlen1
        · rw [List.mem_singleton.mp hr, List.length_map]
    next hcond =>
        injection h2 with h2
        subst h2
        intro r hr
        rw [List.mem_singleton.mp hr]
        exact hlen1
  · rw [if_neg hm] at h
    cases fcols with
    | nil => exact absurd rfl hfne
    | cons c0 crest =>
        cases cd with
        | none =>
            have h2 : Except.error (α := List (List (Option Cell)))
                PyErr.attributeError = Except.ok hs := h
            cases h2
        | some cdl =>
            have h2 : Except.ok (ε := PyErr)
                [(c0 :: crest).map (fun c => displayCell cdl c)] = Except.ok hs := h
            injection h2 with h2
            subst h2
            intro r hr
            rw [List.mem_singleton.mp hr, List.length_map]

lemma calc_ok_inv (ch : Nat) (headers : List (List (Option Cell)))
    (data : List (List String)) (sz : SizeResult)
    (h : calculate_table_size ch headers data = Except.ok sz) :
    sz.totalCols = computeTotalCols headers data ∧ data ≠ [] := by
  cases data with
  | nil => cases h
  | cons r0 rest =>
      simp only [calculate_table_size] at h
      split at h
      next => cases h
      next hne =>
          injection h with h
          subst h
          exact ⟨rfl, List.cons_ne_nil r0 rest⟩

lemma tablePipeline_ok_inv (a : RenderArgs) (out : PipeOut)
    (h : tablePipeline a = Except.ok out) :
    build_table_data a = Except.ok out.td ∧
    calculate_table_size 60 out.td.headers out.td.data = Except.ok out.size ∧
    headerPass out.td.headers out.ncols = Except.ok out.painted := by
  simp only [tablePipeline] at h
  split at h
  next e heq => cases h
  next td heq =>
      split at h
      next e heq2 => cases h
      next sz heq2 =>
          split at h
          next e heq3 => cases h
          next painted heq3 =>
              injection h with h
              subst h
              exact ⟨heq, heq2, heq3⟩

lemma build_rows_len (a : RenderArgs) (td : TableData) (fcols : List String)
    (hf : filteredColumns a.records a.columns_order = Option.some fcols)
    (hfne : fcols ≠ [])
    (hb : build_table_data a = Except.ok td) :
    ∀ r ∈ td.data, r.length = fcols.length := by
  have hd := (build_ok_inv a td hb).2
  rw [hf] at hd
  rw [hd]
  intro r hr
  obtain ⟨rec, -, rfl⟩ := List.mem_map.mp hr
  unfold buildRow
  rw [if_pos (show optListTruthy (Option.some fcols) = true by simp [optListTruthy, hfne])]
  rw [List.length_map, Option.getD_some]

lemma headerColspanSum_shift : ∀ (row : List (Option Cell)) (a : Nat),
    row.foldl (fun a2 oc => match oc with
      | Option.some c => a2 + c.colspan
      | Option.none => a2) a = a + headerColspanSum row := by
  intro row
  induction row with
  | nil => intro a; unfold headerColspanSum; simp
  | cons oc rest ih =>
      intro a
      unfold headerColspanSum
      rw [List.foldl_cons, List.foldl_cons]
      cases oc with
      | none => rw [ih a, ih 0]; omega
      | some c =>
          rw [show (match Option.some c with
                | Option.some c2 => a + c2.colspan
                | Option.none => a) = a + c.colspan from rfl,
              show (match Option.some c with
                | Option.some c2 => 0 + c2.colspan
                | Option.none => 0) = 0 + c.colspan from rfl,
              ih (a + c.colspan), ih (0 + c.colspan)]
          omega

lemma headerColspanSum_replicate_none : ∀ (m : Nat) (rest : List (Option Cell)),
    headerColspanSum (List.replicate m Option.none ++ rest) = headerColspanSum rest := by
  intro m
  induction m with
  | zero => intro rest; rw [List.replicate, List.nil_append]
  | succ n ih =>
      intro rest
      rw [List.replicate_succ, List.cons_append]
      unfold headerColspanSum
      rw [List.foldl_cons]
      exact ih rest

lemma headerColspanSum_blocks {row : List (Option Cell)} (hbr : IsBlockRow row) :
    headerColspanSum row = row.length := by
  induction hbr with
  | nil => rfl
  | cons c rest hrs hcs hrest ih =>
      unfold headerColspanSum
      rw [List.foldl_cons]
      rw [show (match Option.some c with
            | Option.some c2 => 0 + c2.colspan
            | Option.none => 0) = 0 + c.colspan from rfl]
      rw [headerColspanSum_shift]
      rw [headerColspanSum_replicate_none (c.colspan - 1) rest]
      rw [ih]
      simp only [List.length_cons, List.length_append, List.length_replicate]
      omega

lemma headerCols_le : ∀ (hs : List (List (Option Cell))) (a F : Nat), a ≤ F →
    (∀ row ∈ hs, headerColspanSum row ≤ F) →
    hs.foldl (fun m row => max m (headerColspanSum row)) a ≤ F := by
  intro hs
  induction hs with
  | nil => intro a F ha hb; exact ha
  | cons row rest ih =>
      intro a F ha hb
      rw [List.foldl_cons]
      exact ih (max a (headerColspanSum row)) F
        (by
          have := hb row (List.mem_cons_self row rest)
          omega)
        (fun r hr => hb r (List.mem_cons_of_mem _ hr))

lemma maxRowLen_fold_const (F : Nat) : ∀ (rest : List (List String)) (a : Nat),
    a = F → (∀ r ∈ rest, r.length = F) →
    rest.foldl (fun m row => max m row.length) a = F := by
  intro rest
  induction rest with
  | nil => intro a ha hr; exact ha
  | cons r1 rest2 ih =>
      intro a ha hr
      rw [List.foldl_cons]
      refine ih (max a r1.length) ?_ (fun r hr2 => hr r (List.mem_cons_of_mem _ hr2))
      have h1 := hr r1 (List.mem_cons_self r1 rest2)
      omega

lemma maxRowLen_const (F : Nat) (r0 : List String) (rest : List (List String))
    (h0 : r0.length = F) (hr : ∀ r ∈ rest, r.length = F) : maxRowLen r0 rest = F :=
  maxRowLen_fold_const F rest r0.length h0 hr

/-- Claim C3 counterexample: one header layer declaring a single-column span
over two filtered columns leaves grid coordinate (0, 1) of the header block
uncovered — no anchor cell's footprint paints it — so the exactly-once
coverage claim fails as stated. -/
theorem C3_claim_counterexample : c3ClaimHolds c3args = false := by decide

/-- Claim C3 (amended): for every completed render, no header-block
coordinate is ever covered by two different anchor cells' footprints; and
provided at least one column survives filtering and, when a multi-header
spec is present, every layer's declared spans sum to at least the filtered
column count, every coordinate of the header block within the first
`total_cols` columns is covered exactly once by a painted anchor cell
(continuation markers and already-covered positions are skipped without
painting). -/
theorem C3_header_coverage (a : RenderArgs) (out : PipeOut)
    (h : tablePipeline a = Except.ok out) :
    (∀ r c, coverageCount out.painted r c ≤ 1) ∧
    (∀ fcols, filteredColumns a.records a.columns_order = Option.some fcols →
      fcols ≠ [] →
      (∀ layers, a.multi_columns = Option.some layers →
          ∀ l ∈ layers, fcols.length ≤ spanSum l) →
      ∀ r, r < out.td.headers.length → ∀ c, c < out.size.totalCols →
        coverageCount out.painted r c = 1) := by
  obtain ⟨hb, hsz, hhp⟩ := tablePipeline_ok_inv a out h
  have hhb : ∀ row ∈ out.td.headers, IsBlockRow row :=
    buildHeaders_blocks _ _ _ _ (build_ok_inv a out.td hb).1
  have hpainted : out.painted = paintedSpec 0 out.td.headers :=
    headerPass_blocks _ _ _ hhb hhp
  constructor
  · intro r c
    rw [hpainted]
    exact coverage_paintedSpec_le_one out.td.headers 0 r c hhb
  · intro fcols hf hfne hcov r hr c hc
    have hhdr : buildHeaders (Option.some fcols) a.multi_columns a.column_display
        = Except.ok out.td.headers := by
      have := (build_ok_inv a out.td hb).1
      rw [hf] at this
      exact this
    have hrowlen : ∀ row ∈ out.td.headers, row.length = fcols.length :=
      buildHeaders_rows_len fcols a.multi_columns a.column_display out.td.headers
        hfne hcov hhdr
    have htc : out.size.totalCols = fcols.length := by
      obtain ⟨htc0, hdne⟩ := calc_ok_inv 60 out.td.headers out.td.data out.size hsz
      obtain ⟨d0, drest, hdata⟩ : ∃ d0 drest, out.td.data = d0 :: drest := by
        cases hd : out.td.data with
        | nil => exact absurd hd hdne
        | cons x y => exact ⟨x, y, rfl⟩
      have hrl := build_rows_len a out.td fcols hf hfne hb
      rw [hdata] at hrl
      have hd0 : d0.length = fcols.length := hrl d0 (List.mem_cons_self _ _)
      have hdr : ∀ r2 ∈ drest, r2.length = fcols.length :=
        fun r2 hr2 => hrl r2 (List.mem_cons_of_mem _ hr2)
      rw [htc0, hdata]
      rw [show computeTotalCols out.td.headers (d0 :: drest) =
            max (headerCols out.td.headers) (maxRowLen d0 drest) from rfl]
      rw [maxRowLen_const fcols.length d0 drest hd0 hdr]
      have hhc : headerCols out.td.headers ≤ fcols.length :=
        headerCols_le out.td.headers 0 fcols.length (Nat.zero_le _)
          (fun row hrow => by
            rw [headerColspanSum_blocks (hhb row hrow), hrowlen row hrow])
      omega
    rw [htc] at hc
    obtain ⟨row, hrowget⟩ : ∃ row, out.td.headers.get? r = Option.some row := by
      cases hg : out.td.headers.get? r with
      | none =>
          rw [List.get?_eq_none] at hg
          omega
      | some row => exact ⟨row, rfl⟩
    have hrlen : row.length = fcols.length := hrowlen row (List.get?_mem hrowget)
    rw [hpainted]
    have hex := coverage_paintedSpec_exact out.td.headers 0 r row c hhb hrowget
      (by omega)
    simpa using hex

/-- Witness for C3: the two-column single-header render completes and covers
coordinate (0, 0) of its header block exactly once. -/
theorem C3_header_coverage_witness : coverageCount c2PipeOut.painted 0 0 = 1 :=
  (C3_header_coverage c2argsFixed c2PipeOut rfl).2 ["name", "score"] rfl
    (by decide) (fun layers hl => by cases hl) 0 (by decide) 0 (by decide)
